import Mathlib

/-!
Verification development for the crypto trading bot core
(`crypto_bot`: `trader.py`, `risk.py`, `orders.py`).

Python floats are modelled by `ℚ`, Python ints by `ℤ`/`ℕ`, Python strings
by `String`, Python lists by `List`, `None`-able values by `Option`.
Exchange and order-manager interactions are modelled by passing the
responses of the collaborators in as explicit arguments.
-/

namespace CryptoBot

/-! ### MultiPairManager (`trader.py` lines 15–35) -/

structure MultiPairManager where
  max_positions : ℤ
  active_symbols : List String
deriving DecidableEq, Repr

/-- Constructor: `self.max_positions = max(1, min(int(max_positions), 50))`,
`self.active_symbols = []`. -/
def MultiPairManager.mkInit (max_positions : ℤ) : MultiPairManager :=
  { max_positions := max 1 (min max_positions 50), active_symbols := [] }

/-- `can_open_new_position` (`trader.py` lines 22–25). -/
def MultiPairManager.can_open_new_position (m : MultiPairManager) (symbol : String) : Bool :=
  if symbol ∈ m.active_symbols then false
  else decide ((m.active_symbols.length : ℤ) < m.max_positions)

/-- `add_position` (`trader.py` lines 27–30): append if absent. -/
def MultiPairManager.add_position (m : MultiPairManager) (symbol : String) : MultiPairManager :=
  if symbol ∈ m.active_symbols then m
  else { m with active_symbols := m.active_symbols ++ [symbol] }

/-- `remove_position` (`trader.py` lines 32–35): `list.remove` drops the first
occurrence when present. -/
def MultiPairManager.remove_position (m : MultiPairManager) (symbol : String) : MultiPairManager :=
  if symbol ∈ m.active_symbols then { m with active_symbols := m.active_symbols.erase symbol }
  else m

/-! ### RiskManager (`risk.py` lines 6–87) -/

namespace RiskManager

/-- `calculate_position_size` (`risk.py` lines 9–16). -/
def calculate_position_size (balance risk_percent leverage current_price : ℚ) : ℚ :=
  if balance ≤ 0 ∨ current_price ≤ 0 then 0
  else
    let risk_fraction := max risk_percent 0 / 100
    let notional := balance * risk_fraction * max leverage 1
    max (notional / current_price) 0

/-- `calculate_stop_loss` (`risk.py` lines 18–22). -/
def calculate_stop_loss (entry_price stop_loss_percent : ℚ) (is_long : Bool) : ℚ :=
  let p := max stop_loss_percent 0 / 100
  if is_long then entry_price * (1 - p) else entry_price * (1 + p)

/-- `calculate_take_profit` (`risk.py` lines 24–28). -/
def calculate_take_profit (entry_price take_profit_percent : ℚ) (is_long : Bool) : ℚ :=
  let p := max take_profit_percent 0 / 100
  if is_long then entry_price * (1 + p) else entry_price * (1 - p)

end RiskManager

/-- One entry of the `levels_config` list handed to the risk manager.
`step` models the value of the `step_percent` (fallback `step`) key,
`multiplier` the `multiplier` key, `filled` the `filled` key. -/
structure LevelConfig where
  step : ℚ
  multiplier : ℚ
  filled : Bool
deriving DecidableEq, Repr

/-- Python `1 if step > 0 else -1` used at `risk.py` lines 48 and 53. -/
def pySign (x : ℚ) : ℤ :=
  if 0 < x then 1 else -1

namespace RiskManager

/-- `validate_levels` (`risk.py` lines 38–57). `len(set(steps)) != len(steps)`
is modelled by comparing `steps.dedup.length` with `steps.length`;
`abs_steps == sorted(abs_steps)` by comparing with `insertionSort` (Python
`sorted` is a stable ascending sort, and on rationals every ascending sort
agrees with insertion sort). -/
def validate_levels (levels_config : List LevelConfig) : Bool :=
  match levels_config with
  | [] => true
  | c₀ :: cs =>
    let steps := (c₀ :: cs).map (fun c => c.step)
    if steps.dedup.length ≠ steps.length then false
    else
      let first_sign := pySign c₀.step
      if first_sign = 0 then false
      else if steps.any (fun step => decide (step = 0) || decide (pySign step ≠ first_sign)) then
        false
      else
        let abs_steps := steps.map (fun s => |s|)
        decide (abs_steps = abs_steps.insertionSort (fun a b => a ≤ b))

end RiskManager

/-- One prepared averaging level as built by `calculate_custom_levels`
(`risk.py` lines 76–84): keys `level`, `price`, `step`, `multiplier`,
`filled`. -/
structure PreparedLevel where
  level : ℕ
  price : ℚ
  step : ℚ
  multiplier : ℚ
  filled : Bool
deriving DecidableEq, Repr

/-- Sign normalisation applied per level at `risk.py` lines 70–73:
long flips positive steps negative, short flips negative steps to `abs`. -/
def forceStep (is_long : Bool) (step : ℚ) : ℚ :=
  if is_long then (if 0 < step then -step else step)
  else (if step < 0 then |step| else step)

namespace RiskManager

/-- Element-wise build of one prepared level (`risk.py` lines 66–84);
`idx` carries the 1-based position from `enumerate(..., start=1)`. -/
def prepareLevel (entry_price : ℚ) (is_long : Bool) (p : ℕ × LevelConfig) : PreparedLevel :=
  let step := forceStep is_long p.2.step
  { level := p.1
    price := entry_price * (1 + step / 100)
    step := step
    multiplier := p.2.multiplier
    filled := p.2.filled }

/-- `calculate_custom_levels` (`risk.py` lines 59–87): guard, element-wise
build with 1-based enumeration, then a stable sort ascending by `|step|`
(Python `list.sort(key=...)` is stable, as is `insertionSort`). -/
def calculate_custom_levels (entry_price : ℚ) (levels_config : List LevelConfig)
    (is_long : Bool) : List PreparedLevel :=
  if entry_price ≤ 0 ∨ levels_config = [] then []
  else
    let prepared := (levels_config.enumFrom 1).map (prepareLevel entry_price is_long)
    prepared.insertionSort (fun a b => |a.step| ≤ |b.step|)

end RiskManager

instance : IsTotal PreparedLevel (fun a b => |a.step| ≤ |b.step|) :=
  ⟨fun a b => le_total |a.step| |b.step|⟩

instance : IsTrans PreparedLevel (fun a b => |a.step| ≤ |b.step|) :=
  ⟨fun _ _ _ hab hbc => le_trans hab hbc⟩

/-! ### TrailingStop (`risk.py` lines 90–177) -/

structure TrailingStop where
  activation_percent : ℚ
  step_percent : ℚ
  offset_percent : ℚ
  use_atr : Bool
  atr_multiplier : ℚ
  extreme_price : ℚ
  entry_price : ℚ
  activated : Bool
  current_stop : ℚ
deriving DecidableEq, Repr

/-- Constructor (`risk.py` lines 93–109): clamps the percent parameters to
be nonnegative and the ATR multiplier to at least `0.1`. -/
def TrailingStop.create (activation_percent step_percent offset_percent : ℚ)
    (use_atr : Bool) (atr_multiplier : ℚ) : TrailingStop :=
  { activation_percent := max activation_percent 0
    step_percent := max step_percent 0
    offset_percent := max offset_percent 0
    use_atr := use_atr
    atr_multiplier := max atr_multiplier (1/10)
    extreme_price := 0
    entry_price := 0
    activated := false
    current_stop := 0 }

/-- Python method `initialize` (`risk.py` lines 111–116), renamed here:
reset the state onto the entry price. -/
def TrailingStop.initAt (ts : TrailingStop) (entry_price : ℚ) : TrailingStop :=
  { ts with
    entry_price := entry_price
    extreme_price := entry_price
    activated := false
    current_stop := 0 }

/-- Python truthiness of `atr_value and atr_value > 0` at `risk.py`
lines 134 and 158: `None` and `0.0` are falsy, so the combined test is
exactly positivity of a supplied value. -/
def atrPositive : Option ℚ → Bool
  | none => false
  | some a => decide (0 < a)

/-- The stop-ratchet step of the long branch (`risk.py` lines 139–147):
take the candidate only if the stop is unset or the candidate is strictly
higher; an unset stop is taken unconditionally, otherwise the relative
move must reach `step_percent`. -/
def TrailingStop.ratchetLong (ts₁ : TrailingStop) (candidate_stop : ℚ) :
    TrailingStop × Option ℚ :=
  if ts₁.current_stop = 0 ∨ ts₁.current_stop < candidate_stop then
    if ts₁.current_stop = 0 then
      ({ ts₁ with current_stop := candidate_stop }, some candidate_stop)
    else
      let move_percent := (candidate_stop - ts₁.current_stop) / ts₁.current_stop * 100
      if ts₁.step_percent ≤ move_percent then
        ({ ts₁ with current_stop := candidate_stop }, some candidate_stop)
      else (ts₁, none)
  else (ts₁, none)

/-- The stop-ratchet step of the short branch (`risk.py` lines 163–170):
mirror image of the long ratchet, the candidate must be strictly lower. -/
def TrailingStop.ratchetShort (ts₁ : TrailingStop) (candidate_stop : ℚ) :
    TrailingStop × Option ℚ :=
  if ts₁.current_stop = 0 ∨ candidate_stop < ts₁.current_stop then
    if ts₁.current_stop = 0 then
      ({ ts₁ with current_stop := candidate_stop }, some candidate_stop)
    else
      let move_percent := (ts₁.current_stop - candidate_stop) / ts₁.current_stop * 100
      if ts₁.step_percent ≤ move_percent then
        ({ ts₁ with current_stop := candidate_stop }, some candidate_stop)
      else (ts₁, none)
  else (ts₁, none)

/-- The extreme/activation mutation at the top of the long branch
(`risk.py` lines 124–129): extend the extreme upward and latch the
activation flag once profit reaches the threshold. -/
def TrailingStop.advanceLong (ts : TrailingStop) (price : ℚ) : TrailingStop :=
  let extreme := if ts.extreme_price < price then price else ts.extreme_price
  { ts with
    extreme_price := extreme
    activated := ts.activated || decide (ts.activation_percent ≤
      (extreme - ts.entry_price) / ts.entry_price * 100) }

/-- The extreme/activation mutation at the top of the short branch
(`risk.py` lines 149–153): extend the extreme downward (a zero extreme is
replaced outright) and latch the activation flag. -/
def TrailingStop.advanceShort (ts : TrailingStop) (price : ℚ) : TrailingStop :=
  let extreme := if ts.extreme_price = 0 ∨ price < ts.extreme_price then price
    else ts.extreme_price
  { ts with
    extreme_price := extreme
    activated := ts.activated || decide (ts.activation_percent ≤
      (ts.entry_price - extreme) / ts.entry_price * 100) }

/-- The long branch of `TrailingStop.update` (`risk.py` lines 124–147):
advance extreme/activation, then (only when activated) ratchet the stop
towards the candidate `extreme - atr·mult` (ATR mode with a positive ATR)
or `extreme·(1 - offset/100)`. -/
def TrailingStop.updateLong (ts : TrailingStop) (price : ℚ) (atr_value : Option ℚ) :
    TrailingStop × Option ℚ :=
  let ts₁ := ts.advanceLong price
  if ts₁.activated = false then (ts₁, none)
  else
    let candidate_stop :=
      if ts.use_atr && atrPositive atr_value then
        ts₁.extreme_price - (atr_value.getD 0) * ts.atr_multiplier
      else ts₁.extreme_price * (1 - ts.offset_percent / 100)
    TrailingStop.ratchetLong ts₁ candidate_stop

/-- The short branch of `TrailingStop.update` (`risk.py` lines 149–171):
advance extreme/activation, then ratchet the stop towards
`extreme + atr·mult` or `extreme·(1 + offset/100)`. -/
def TrailingStop.updateShort (ts : TrailingStop) (price : ℚ) (atr_value : Option ℚ) :
    TrailingStop × Option ℚ :=
  let ts₁ := ts.advanceShort price
  if ts₁.activated = false then (ts₁, none)
  else
    let candidate_stop :=
      if ts.use_atr && atrPositive atr_value then
        ts₁.extreme_price + (atr_value.getD 0) * ts.atr_multiplier
      else ts₁.extreme_price * (1 + ts.offset_percent / 100)
    TrailingStop.ratchetShort ts₁ candidate_stop

/-- `TrailingStop.update` (`risk.py` lines 118–171). The mutation of the
Python object is modelled by returning the new state together with the
returned value (`some` new stop on change, `none` otherwise). -/
def TrailingStop.update (ts : TrailingStop) (current_price : ℚ) (is_long : Bool)
    (atr_value : Option ℚ) : TrailingStop × Option ℚ :=
  let price := current_price
  if price ≤ 0 ∨ ts.entry_price ≤ 0 then (ts, none)
  else if is_long then ts.updateLong price atr_value
  else ts.updateShort price atr_value

/-- `TrailingStop.should_stop` (`risk.py` lines 173–177). -/
def TrailingStop.should_stop (ts : TrailingStop) (current_price : ℚ) (is_long : Bool) : Bool :=
  if ts.activated = false ∨ ts.current_stop ≤ 0 then false
  else if is_long then decide (current_price ≤ ts.current_stop)
  else decide (ts.current_stop ≤ current_price)

/-- Folding a list of price updates through the trailing stop with no ATR
input, as the trader does once per tick per open position. -/
def TrailingStop.runUpdates (ts : TrailingStop) (prices : List ℚ) (is_long : Bool) : TrailingStop :=
  prices.foldl (fun t p => (t.update p is_long none).1) ts

/-! ### OrderManager limit-retry protocol (`orders.py` lines 39–78) -/

/-- An exchange order as far as the retry loop inspects it: its `id`.
The Python `order.get("id")` may be falsy; an absent id is modelled by the
empty string. -/
structure ExchOrder where
  id : String
deriving DecidableEq, Repr

/-- The exchange responses consumed by one iteration of the retry loop:
the result of `place_order` (`none` models a failed submission), the
`fetch_open_orders` answer after the wait, and the `fetch_ticker` `last`
value (`none` models a falsy ticker). -/
structure AttemptEnv where
  placed : Option ExchOrder
  open_orders : List ExchOrder
  ticker_last : Option ℚ
deriving DecidableEq, Repr

/-- Result of the retry protocol. `done r` is the Python return value `r`;
`outOfScript` marks a run that would keep looping beyond the scripted
exchange responses (used to express non-termination of the
`max_attempts = 0` loop on a finite script). -/
inductive RetryResult where
  | done : Option ExchOrder → RetryResult
  | outOfScript : RetryResult
deriving DecidableEq, Repr

/-- Python truthiness of `ticker and ticker.get("last")` at `orders.py`
line 69: refresh only when a ticker with a nonzero `last` came back. -/
def tickerTruthy : Option ℚ → Bool
  | none => false
  | some t => decide (t ≠ 0)

/-- `place_limit_order_with_retry` (`orders.py` lines 39–78).
The loop is driven by the scripted exchange responses `script`, one entry
per iteration; `market_result` is the exchange's answer to the fallback
market order; `attempts` is the Python local counter (0 at entry).
A submission failure consumes an iteration and retries; an empty
open-order list returns the placed order; otherwise the order is cancelled
(when still listed under a truthy id) with the price refreshed from the
ticker, and the loop retries. On loop exit the fallback decides between a
market order and `none`. -/
def place_limit_order_with_retry (script : List AttemptEnv) (market_result : Option ExchOrder)
    (max_attempts : ℕ) (fallback_to_market : Bool) (price : ℚ) (attempts : ℕ) : RetryResult :=
  if max_attempts = 0 ∨ attempts < max_attempts then
    match script with
    | [] => RetryResult.outOfScript
    | env :: rest =>
      match env.placed with
      | none =>
        place_limit_order_with_retry rest market_result max_attempts fallback_to_market
          price (attempts + 1)
      | some order =>
        if env.open_orders = [] then RetryResult.done (some order)
        else
          let still_open := env.open_orders.any (fun o => o.id = order.id)
          let price' :=
            if still_open && decide (order.id ≠ "") then
              (if tickerTruthy env.ticker_last then env.ticker_last.getD 0 else price)
            else price
          place_limit_order_with_retry rest market_result max_attempts fallback_to_market
            price' (attempts + 1)
  else if fallback_to_market then RetryResult.done market_result
  else RetryResult.done none

/-! ### TradingBot state (`trader.py` lines 38–64 and 193–204) -/

/-- The per-symbol position record built at `trader.py` lines 195–201. -/
structure Position where
  position_id : String
  entry_price : ℚ
  average_entry : ℚ
  total_amount : ℚ
  base_amount : ℚ
  levels_config : List PreparedLevel
  levels_filled : List ℕ
  is_long : Bool
  stop_loss : ℚ
  take_profit : ℚ
  max_drawdown : ℚ
  trailing_stop : Option TrailingStop
  locked_balance : ℚ
deriving DecidableEq, Repr

/-- Per-symbol statistics dict as created by `setdefault` at `trader.py`
lines 202, 234 and 258. -/
structure PairStats where
  realized_pnl : ℚ
  deals : ℕ
  wins : ℕ
  losses : ℕ
  pnl_history : List ℚ
  last_open_pnl : ℚ
deriving DecidableEq, Repr

/-- The fresh statistics value
`{"realized_pnl": 0.0, "deals": 0, "wins": 0, "losses": 0, "pnl_history": [0.0], "last_open_pnl": 0.0}`. -/
def PairStats.fresh : PairStats :=
  { realized_pnl := 0, deals := 0, wins := 0, losses := 0, pnl_history := [0], last_open_pnl := 0 }

/-- `recalculate_with_levels` (`trader.py` lines 209–215): volume-weighted
blending of the average entry. -/
def recalculate_with_levels (position : Position) (fill_price fill_amount : ℚ) : Position :=
  let old_amount := position.total_amount
  let old_avg := position.average_entry
  let new_amount := old_amount + fill_amount
  if 0 < new_amount then
    { position with
      total_amount := new_amount
      average_entry := (old_avg * old_amount + fill_price * fill_amount) / new_amount }
  else position

/-- Realized P&L of a close (`trader.py` line 229). -/
def closePnlAbs (position : Position) (current_price : ℚ) : ℚ :=
  if position.is_long then (current_price - position.average_entry) * position.total_amount
  else (position.average_entry - current_price) * position.total_amount

/-- The statistics update performed under the lock in `_close_position`
(`trader.py` lines 234–240). -/
def closeStatsUpdate (st : PairStats) (pnl_abs : ℚ) : PairStats :=
  { realized_pnl := st.realized_pnl + pnl_abs
    deals := st.deals + 1
    wins := st.wins + (if 0 ≤ pnl_abs then 1 else 0)
    losses := st.losses + (if pnl_abs < 0 then 1 else 0)
    last_open_pnl := 0
    pnl_history := st.pnl_history ++ [st.realized_pnl + pnl_abs] }

/-- `_close_position` (`trader.py` lines 217–244) for an existing position:
returns the removed position slot (`none`), the updated statistics, and
the market close orders submitted (`(side, amount)` pairs). -/
def close_position (position : Position) (stats : PairStats) (signals_only : Bool)
    (current_price : ℚ) : Option Position × PairStats × List (String × ℚ) :=
  let side := if position.is_long then "sell" else "buy"
  let amount := position.total_amount
  let orders := if 0 < amount ∧ signals_only = false then [(side, amount)] else []
  (none, closeStatsUpdate stats (closePnlAbs position current_price), orders)

/-! ### TradingBot.execute_signal (`trader.py` lines 124–207) -/

/-- `TradingBot` state touched by `execute_signal`: the capital mode
(`trader.py` line 63), the live position map, the allocator, the initial
balance and the statistics map. -/
structure TraderState where
  capital_mode : String
  active_positions : List (String × Position)
  multi_pair_manager : MultiPairManager
  initial_balance : ℚ
  pair_stats : List (String × PairStats)
deriving DecidableEq, Repr

def lookupPos (ps : List (String × Position)) (symbol : String) : Option Position :=
  (ps.find? (fun p => p.1 = symbol)).map (fun p => p.2)

def upsertPos (ps : List (String × Position)) (symbol : String) (pos : Position) :
    List (String × Position) :=
  if (ps.find? (fun p => p.1 = symbol)).isSome then
    ps.map (fun p => if p.1 = symbol then (symbol, pos) else p)
  else ps ++ [(symbol, pos)]

def setdefaultStats (stats : List (String × PairStats)) (symbol : String) :
    List (String × PairStats) :=
  if (stats.find? (fun p => p.1 = symbol)).isSome then stats
  else stats ++ [(symbol, PairStats.fresh)]

def updateStats (stats : List (String × PairStats)) (symbol : String)
    (f : PairStats → PairStats) : List (String × PairStats) :=
  (setdefaultStats stats symbol).map (fun p => if p.1 = symbol then (p.1, f p.2) else p)

/-- `_can_open_position` (`trader.py` lines 124–125). -/
def can_open_position (st : TraderState) (symbol : String) : Bool :=
  st.multi_pair_manager.can_open_new_position symbol
    && (lookupPos st.active_positions symbol).isNone

/-- The configuration keys read on the `execute_signal` path, with the
point-of-use defaults of `trader.py` already resolved by the caller. -/
structure ExecCfg where
  risk_percent : ℚ
  leverage : ℚ
  signals_only : Bool
  stop_loss_percent : ℚ
  take_profit_percent : ℚ
  averaging_enabled : Bool
  averaging_levels : List LevelConfig
  max_drawdown_percent : ℚ
  trailing_enabled : Bool
  trailing_activation_percent : ℚ
  trailing_step_percent : ℚ
  trailing_offset_percent : ℚ
  trailing_type_atr : Bool
  trailing_atr_multiplier : ℚ
deriving DecidableEq, Repr

/-- The collaborator responses consumed by one `execute_signal` call:
the free USDT balance (`none` models a missing key, collapsed to `0.0` by
`or 0.0`), the ticker `last` (`none` models a falsy ticker; `0` is falsy),
the synthetic order id used in signals-only mode, and the order manager's
response otherwise (`none` models a failed submission). -/
structure ExecEnv where
  free_usdt : Option ℚ
  ticker_last : Option ℚ
  signal_order_id : String
  order_result : Option String
deriving DecidableEq, Repr

/-- `execute_signal` (`trader.py` lines 127–207). Effects on collaborators
(order submission, SL/TP placement, notifications) are outside the state;
the function returns the new trader state and the Python return value.
The entry order is modelled by its resulting id: in signals-only mode the
synthetic `signal-...` id (always truthy), otherwise the order manager's
response. -/
def execute_signal (st : TraderState) (cfg : ExecCfg) (env : ExecEnv)
    (symbol signal : String) : TraderState × Bool :=
  if ¬(signal = "long" ∨ signal = "short") ∨ can_open_position st symbol = false then
    (st, false)
  else
    let usdt_balance := env.free_usdt.getD 0
    if usdt_balance ≤ 0 then (st, false)
    else
      let st := if st.initial_balance ≤ 0 then { st with initial_balance := usdt_balance } else st
      match env.ticker_last with
      | none => (st, false)
      | some last =>
        if last = 0 then (st, false)
        else
          let entry_price := last
          let amount := RiskManager.calculate_position_size usdt_balance cfg.risk_percent
            cfg.leverage entry_price
          if amount ≤ 0 then (st, false)
          else
            let is_long := signal = "long"
            let order_id : Option String :=
              if cfg.signals_only then some env.signal_order_id else env.order_result
            match order_id with
            | none => (st, false)
            | some oid =>
              let stop_loss := RiskManager.calculate_stop_loss entry_price
                cfg.stop_loss_percent is_long
              let take_profit := RiskManager.calculate_take_profit entry_price
                cfg.take_profit_percent is_long
              let levels :=
                if cfg.averaging_enabled && decide (cfg.averaging_levels ≠ []) then
                  RiskManager.calculate_custom_levels entry_price cfg.averaging_levels is_long
                else []
              let trailing : Option TrailingStop :=
                if cfg.trailing_enabled then
                  some ((TrailingStop.create cfg.trailing_activation_percent
                    cfg.trailing_step_percent cfg.trailing_offset_percent
                    cfg.trailing_type_atr cfg.trailing_atr_multiplier).initAt entry_price)
                else none
              let locked_balance := entry_price * amount / max cfg.leverage 1
              let pos : Position :=
                { position_id := oid
                  entry_price := entry_price
                  average_entry := entry_price
                  total_amount := amount
                  base_amount := amount
                  levels_config := levels
                  levels_filled := []
                  is_long := is_long
                  stop_loss := stop_loss
                  take_profit := take_profit
                  max_drawdown := cfg.max_drawdown_percent
                  trailing_stop := trailing
                  locked_balance := locked_balance }
              ({ st with
                  active_positions := upsertPos st.active_positions symbol pos
                  multi_pair_manager := st.multi_pair_manager.add_position symbol
                  pair_stats := updateStats st.pair_stats symbol
                    (fun s => { s with last_open_pnl := 0 }) }, true)

/-- Sum of the `locked_balance` fields over all open positions: the pooled
sizing budget the specification subtracts from free balance. -/
def lockedCapitalSum (ps : List (String × Position)) : ℚ :=
  (ps.map (fun p => p.2.locked_balance)).sum

/-! ### Per-position body of check_custom_average_signals
(`trader.py` lines 246–319) -/

/-- Collaborator responses consumed by one per-position pass: the ticker
`last` and the order manager's answers to the two `place_order` calls of
the averaging branch (`trader.py` lines 301 and 309). -/
structure TickEnv where
  ticker_last : Option ℚ
  avg_order1_ok : Bool
  avg_order2_ok : Bool
deriving DecidableEq, Repr

/-- Everything a per-position pass can do: the surviving position (`none`
when closed), the updated statistics, the market orders submitted as
`(side, amount)` pairs in submission order, the close reason, and whether
the averaging notification was emitted. -/
structure TickResult where
  position : Option Position
  stats : PairStats
  orders : List (String × ℚ)
  close_reason : Option String
  averaging_note : Bool
deriving DecidableEq, Repr

/-- Marks the first unfilled level (the one `next(...)` found) as filled,
modelling the in-place mutation of the level dict at `trader.py`
lines 304 and 313. -/
def markNextFilled : List PreparedLevel → List PreparedLevel
  | [] => []
  | l :: ls => if l.filled then l :: markNextFilled ls else { l with filled := true } :: ls

/-- The averaging-ladder branch (`trader.py` lines 289–319). In live mode
the code submits the market fill order twice: once at line 301 and again
at line 309. -/
def tick_ladder (position : Position) (stats : PairStats) (signals_only : Bool)
    (env : TickEnv) (current_price : ℚ) : TickResult :=
  let is_long := position.is_long
  match position.levels_config.find? (fun lvl => lvl.filled = false) with
  | none => ⟨some position, stats, [], none, false⟩
  | some next_level =>
    let trigger := if is_long then decide (current_price ≤ next_level.price)
      else decide (next_level.price ≤ current_price)
    if trigger = false then ⟨some position, stats, [], none, false⟩
    else
      let fill_amount := position.base_amount * next_level.multiplier
      let side := if is_long then "buy" else "sell"
      if signals_only then
        let position := { position with
          levels_config := markNextFilled position.levels_config
          levels_filled := position.levels_filled ++ [next_level.level] }
        ⟨some position, stats, [], none, false⟩
      else if env.avg_order1_ok = false then
        ⟨some position, stats, [(side, fill_amount)], none, false⟩
      else if env.avg_order2_ok = false then
        ⟨some position, stats, [(side, fill_amount), (side, fill_amount)], none, false⟩
      else
        let position := { position with
          levels_config := markNextFilled position.levels_config
          levels_filled := position.levels_filled ++ [next_level.level] }
        let position := recalculate_with_levels position current_price fill_amount
        ⟨some position, stats, [(side, fill_amount), (side, fill_amount)], none, true⟩

/-- The max-drawdown breaker (`trader.py` lines 281–287). -/
def tick_drawdown (position : Position) (stats : PairStats) (signals_only : Bool)
    (env : TickEnv) (current_price : ℚ) : TickResult :=
  let entry := position.entry_price
  if 0 < entry then
    let dd := if position.is_long then (entry - current_price) / entry * 100
      else (current_price - entry) / entry * 100
    if position.max_drawdown ≤ dd then
      let r := close_position position stats signals_only current_price
      ⟨r.1, r.2.1, r.2.2, some "max_drawdown", false⟩
    else tick_ladder position stats signals_only env current_price
  else tick_ladder position stats signals_only env current_price

/-- The SL/TP crossing check (`trader.py` lines 273–279). -/
def tick_sl_tp (position : Position) (stats : PairStats) (signals_only : Bool)
    (env : TickEnv) (current_price : ℚ) : TickResult :=
  let is_long := position.is_long
  let hit_sl := if is_long then decide (current_price ≤ position.stop_loss)
    else decide (position.stop_loss ≤ current_price)
  let hit_tp := if is_long then decide (position.take_profit ≤ current_price)
    else decide (current_price ≤ position.take_profit)
  if hit_sl || hit_tp then
    let r := close_position position stats signals_only current_price
    ⟨r.1, r.2.1, r.2.2, some "SL/TP", false⟩
  else tick_drawdown position stats signals_only env current_price

/-- One per-position pass of `check_custom_average_signals`
(`trader.py` lines 248–319). Note the trailing stop is updated twice per
tick (lines 261–266) before `should_stop` is consulted. -/
def position_tick (position : Position) (stats : PairStats) (signals_only : Bool)
    (env : TickEnv) : TickResult :=
  match env.ticker_last with
  | none => ⟨some position, stats, [], none, false⟩
  | some last =>
    if last = 0 then ⟨some position, stats, [], none, false⟩
    else
      let current_price := last
      let open_pnl := if position.is_long then
          (current_price - position.average_entry) * position.total_amount
        else (position.average_entry - current_price) * position.total_amount
      let stats := { stats with last_open_pnl := open_pnl }
      let position :=
        match position.trailing_stop with
        | some trailing =>
          { position with
            trailing_stop := some (trailing.update current_price position.is_long none).1 }
        | none => position
      match position.trailing_stop with
      | some trailing =>
        let trailing' := (trailing.update current_price position.is_long none).1
        let position := { position with trailing_stop := some trailing' }
        if trailing'.should_stop current_price position.is_long then
          let r := close_position position stats signals_only current_price
          ⟨r.1, r.2.1, r.2.2, some "trailing_stop", false⟩
        else tick_sl_tp position stats signals_only env current_price
      | none => tick_sl_tp position stats signals_only env current_price

/-! ### Worker loop (`trader.py` lines 332–353) -/

/-- Outcome of one `run_once` call: normal return or a raised exception. -/
inductive TickOutcome where
  | ok : TickOutcome
  | exc : String → TickOutcome
deriving DecidableEq, Repr

/-- Loop-level observable state: the `_running` flag, how many ticks have
executed, and how many error notifications went out. -/
structure LoopState where
  running : Bool
  ticks_run : ℕ
  errors_notified : ℕ
deriving DecidableEq, Repr

/-- `_notify` (`trader.py` lines 66–74) reduced to whether a message is
sent, given the notifier's presence and the two telegram filter flags. -/
def notifySends (notifier_on telegram_errors telegram_trades : Bool) (kind : String) : Bool :=
  if notifier_on = false then false
  else if kind = "error" && telegram_errors = false then false
  else if kind = "trade" && telegram_trades = false then false
  else true

/-- The try/except body of one worker iteration (`trader.py` lines
341–346): the tick runs; an exception is caught at the tick boundary,
logged, and reported through `_notify` with kind `error`; the iteration
completes either way. -/
def loop_iteration (notifier_on telegram_errors telegram_trades : Bool)
    (s : LoopState) (t : TickOutcome) : LoopState :=
  match t with
  | TickOutcome.ok => { s with ticks_run := s.ticks_run + 1 }
  | TickOutcome.exc _ =>
    { s with
      ticks_run := s.ticks_run + 1
      errors_notified := s.errors_notified +
        (if notifySends notifier_on telegram_errors telegram_trades "error" then 1 else 0) }

/-- The worker's `while self._running` loop (`trader.py` lines 340–346)
over a finite schedule of tick outcomes; the flag is observed at the top
of each iteration. -/
def worker (notifier_on telegram_errors telegram_trades : Bool) :
    LoopState → List TickOutcome → LoopState
  | s, [] => s
  | s, t :: ts =>
    if s.running then
      worker notifier_on telegram_errors telegram_trades
        (loop_iteration notifier_on telegram_errors telegram_trades s t) ts
    else s

/-- `stop_loop` (`trader.py` lines 352–353). -/
def stop_loop (s : LoopState) : LoopState :=
  { s with running := false }

/-! ## Helper lemmas -/

theorem dedup_length_eq_iff {α : Type} [DecidableEq α] (l : List α) :
    l.dedup.length = l.length ↔ l.Nodup := by
  constructor
  · intro h
    have he : l.dedup = l := (l.dedup_sublist).eq_of_length h
    simpa [he] using l.nodup_dedup
  · intro h
    rw [List.dedup_eq_self.mpr h]

theorem eq_insertionSort_iff (l : List ℚ) :
    l = l.insertionSort (fun a b => a ≤ b) ↔ l.Sorted (fun a b => a ≤ b) := by
  constructor
  · intro h
    rw [h]
    exact List.sorted_insertionSort _ l
  · intro h
    exact (List.Sorted.insertionSort_eq h).symm

theorem pySign_ne_zero (a : ℚ) : pySign a ≠ 0 := by
  unfold pySign
  split_ifs <;> decide

theorem pySign_eq_iff (a b : ℚ) : pySign a = pySign b ↔ (0 < a ↔ 0 < b) := by
  unfold pySign
  split_ifs with h₁ h₂ h₂
  · simp [h₁, h₂]
  · constructor
    · intro h
      exact absurd h (by decide)
    · intro h
      exact (h₂ (h.mp h₁)).elim
  · constructor
    · intro h
      exact absurd h (by decide)
    · intro h
      exact (h₁ (h.mpr h₂)).elim
  · simp [h₁, h₂]

/-- Both worker invariants in one inductive pass: while the flag is up, the
loop runs every scheduled tick, keeps running, and reports each caught
exception through the notification filter. -/
theorem worker_run_aux (ne te tt : Bool) (ts : List TickOutcome) :
    ∀ s : LoopState, s.running = true →
      worker ne te tt s ts =
        ⟨true, s.ticks_run + ts.length,
          s.errors_notified + (if notifySends ne te tt "error" then 1 else 0) *
            ts.countP (fun t => decide (t ≠ TickOutcome.ok))⟩ := by
  induction ts with
  | nil =>
    intro s hs
    cases s with
    | mk running ticks errs => simp_all [worker]
  | cons t ts ih =>
    intro s hs
    have hrun : (loop_iteration ne te tt s t).running = s.running := by
      cases t <;> rfl
    rw [worker, if_pos hs, ih _ (by rw [hrun, hs])]
    cases t with
    | ok =>
      simp only [loop_iteration, List.countP_cons, LoopState.mk.injEq, List.length_cons, ne_eq]
      refine ⟨trivial, by omega, ?_⟩
      simp
    | exc m =>
      simp only [loop_iteration, List.countP_cons, LoopState.mk.injEq, List.length_cons, ne_eq]
      refine ⟨trivial, by omega, ?_⟩
      have hm : (decide ¬(TickOutcome.exc m = TickOutcome.ok)) = true := by
        simp
      rw [hm, if_pos rfl]
      split_ifs <;> ring

/-! ## Claim theorems -/

/-- C9: the `MultiPairManager` constructor clamps its `max_positions`
argument into `[1, 50]`, so for every integer input the stored capacity
limit satisfies `1 ≤ max_positions ≤ 50`; and neither `add_position` nor
`remove_position` ever changes the stored limit, so the bound holds for
the lifetime of the manager. -/
theorem C9_max_positions_clamped :
    (∀ m : ℤ, 1 ≤ (MultiPairManager.mkInit m).max_positions ∧
      (MultiPairManager.mkInit m).max_positions ≤ 50) ∧
    (∀ (M : MultiPairManager) (s : String),
      (M.add_position s).max_positions = M.max_positions ∧
      (M.remove_position s).max_positions = M.max_positions) := by
  constructor
  · intro m
    refine ⟨le_max_left 1 _, max_le (by norm_num) (min_le_right m 50)⟩
  · intro M s
    constructor
    · unfold MultiPairManager.add_position
      split_ifs <;> rfl
    · unfold MultiPairManager.remove_position
      split_ifs <;> rfl

/-- C8: `can_open_new_position` is false whenever the symbol already holds
a slot or the active-symbol count has reached `max_positions`;
`add_position` on a held symbol and `remove_position` on an absent one
leave the manager unchanged; and with a capacity of 2, after two reserves
for distinct symbols any third symbol is refused. -/
theorem C8_allocator :
    (∀ (M : MultiPairManager) (s : String),
      s ∈ M.active_symbols → M.can_open_new_position s = false) ∧
    (∀ (M : MultiPairManager) (s : String),
      M.max_positions ≤ (M.active_symbols.length : ℤ) →
        M.can_open_new_position s = false) ∧
    (∀ (M : MultiPairManager) (s : String),
      s ∈ M.active_symbols → M.add_position s = M) ∧
    (∀ (M : MultiPairManager) (s : String),
      s ∉ M.active_symbols → M.remove_position s = M) ∧
    (∀ a b c : String, a ≠ b → c ≠ a → c ≠ b →
      (((MultiPairManager.mkInit 2).add_position a).add_position b).can_open_new_position c
        = false) := by
  refine ⟨?_, ?_, ?_, ?_, ?_⟩
  · intro M s hmem
    simp [MultiPairManager.can_open_new_position, hmem]
  · intro M s hlen
    unfold MultiPairManager.can_open_new_position
    split_ifs with h
    · rfl
    · simpa using not_lt.mpr hlen
  · intro M s hmem
    simp [MultiPairManager.add_position, hmem]
  · intro M s hmem
    simp [MultiPairManager.remove_position, hmem]
  · intro a b c hab hca hcb
    simp [MultiPairManager.mkInit, MultiPairManager.add_position,
      MultiPairManager.can_open_new_position, hab.symm, hca, hcb]

/-- C8 witness: the refusal and idempotence facts at concrete managers and
symbols. -/
theorem C8_allocator_witness :
    (MultiPairManager.mk 2 ["X"]).can_open_new_position "X" = false ∧
    (MultiPairManager.mk 1 ["A"]).can_open_new_position "B" = false ∧
    (MultiPairManager.mk 2 ["X"]).add_position "X" = MultiPairManager.mk 2 ["X"] ∧
    (MultiPairManager.mk 2 ["X"]).remove_position "Y" = MultiPairManager.mk 2 ["X"] ∧
    (((MultiPairManager.mkInit 2).add_position "A").add_position "B").can_open_new_position "C"
      = false :=
  ⟨C8_allocator.1 _ "X" (by decide),
   C8_allocator.2.1 _ "B" (by decide),
   C8_allocator.2.2.1 _ "X" (by decide),
   C8_allocator.2.2.2.1 _ "Y" (by decide),
   C8_allocator.2.2.2.2 "A" "B" "C" (by decide) (by decide) (by decide)⟩

/-- C10: in the close accounting a realized P&L of exactly zero is
recorded as a win; the wins counter increments exactly when `pnl ≥ 0`, the
losses counter exactly when `pnl < 0`, deals always increments, and the
invariant `deals = wins + losses` is preserved by every close. -/
theorem C10_close_stats (st : PairStats) (pnl : ℚ) :
    ((closeStatsUpdate st 0).wins = st.wins + 1 ∧ (closeStatsUpdate st 0).losses = st.losses) ∧
    ((closeStatsUpdate st pnl).wins = st.wins + 1 ↔ 0 ≤ pnl) ∧
    ((closeStatsUpdate st pnl).losses = st.losses + 1 ↔ pnl < 0) ∧
    (closeStatsUpdate st pnl).deals = st.deals + 1 ∧
    (st.deals = st.wins + st.losses →
      (closeStatsUpdate st pnl).deals =
        (closeStatsUpdate st pnl).wins + (closeStatsUpdate st pnl).losses) := by
  refine ⟨⟨?_, ?_⟩, ?_, ?_, rfl, ?_⟩
  · simp [closeStatsUpdate]
  · simp [closeStatsUpdate]
  · show st.wins + (if 0 ≤ pnl then 1 else 0) = st.wins + 1 ↔ 0 ≤ pnl
    split_ifs with h
    · simp [h]
    · exact ⟨fun he => absurd he (by omega), fun hp => absurd hp h⟩
  · show st.losses + (if pnl < 0 then 1 else 0) = st.losses + 1 ↔ pnl < 0
    split_ifs with h
    · simp [h]
    · exact ⟨fun he => absurd he (by omega), fun hp => absurd hp h⟩
  · intro hinv
    show st.deals + 1 =
      (st.wins + (if 0 ≤ pnl then 1 else 0)) + (st.losses + (if pnl < 0 then 1 else 0))
    rcases le_or_lt 0 pnl with h | h
    · simp [h, not_lt.mpr h]
      omega
    · simp [not_le.mpr h, h]
      omega

/-- C10 witness: the preserved invariant instantiated at the fresh
statistics record and a zero-P&L close. -/
theorem C10_close_stats_witness :
    (closeStatsUpdate PairStats.fresh 0).deals =
      (closeStatsUpdate PairStats.fresh 0).wins + (closeStatsUpdate PairStats.fresh 0).losses :=
  (C10_close_stats PairStats.fresh 0).2.2.2.2 (by decide)

/-- C5: an exception raised inside one control-loop tick is caught at the
tick boundary and never terminates the worker: while the running flag is
true every scheduled tick executes and the loop keeps running, each caught
exception is reported through the error-notification path, the flag is
observed at the top of each iteration (a false flag stops the loop before
any further tick), and only `stop_loop` lowers the flag. -/
theorem C5_loop_survives_exceptions :
    (∀ (ne te tt : Bool) (s : LoopState) (ts : List TickOutcome), s.running = true →
      (worker ne te tt s ts).running = true ∧
      (worker ne te tt s ts).ticks_run = s.ticks_run + ts.length) ∧
    (∀ (s : LoopState) (ts : List TickOutcome), s.running = true →
      (worker true true true s ts).errors_notified =
        s.errors_notified + ts.countP (fun t => decide (t ≠ TickOutcome.ok))) ∧
    (∀ (ne te tt : Bool) (s : LoopState) (ts : List TickOutcome),
      s.running = false → worker ne te tt s ts = s) ∧
    (∀ s : LoopState, (stop_loop s).running = false) := by
  refine ⟨?_, ?_, ?_, fun s => rfl⟩
  · intro ne te tt s ts hs
    rw [worker_run_aux ne te tt ts s hs]
    exact ⟨rfl, rfl⟩
  · intro s ts hs
    rw [worker_run_aux true true true ts s hs]
    simp [notifySends]
  · intro ne te tt s ts hs
    cases ts with
    | nil => rfl
    | cons t ts => simp [worker, hs]

/-- C5 witness: a loop that is running survives a tick that raises, having
run the tick; a stopped loop does nothing. -/
theorem C5_loop_witness :
    ((worker true true true ⟨true, 0, 0⟩ [TickOutcome.exc "boom"]).running = true ∧
      (worker true true true ⟨true, 0, 0⟩ [TickOutcome.exc "boom"]).ticks_run =
        0 + [TickOutcome.exc "boom"].length) ∧
    worker true true true ⟨false, 0, 0⟩ [TickOutcome.exc "boom"] = ⟨false, 0, 0⟩ :=
  ⟨C5_loop_survives_exceptions.1 true true true ⟨true, 0, 0⟩ [TickOutcome.exc "boom"] rfl,
   C5_loop_survives_exceptions.2.2.1 true true true ⟨false, 0, 0⟩ [TickOutcome.exc "boom"] rfl⟩


/-- C6: `validate_levels` accepts the empty ladder, and a non-empty ladder
is accepted exactly when the step values are pairwise distinct, all
nonzero with the same sign as the first, and the absolute values are
non-decreasing in input order; `[-2, -5, -10]` is accepted. -/
theorem C6_validate_levels :
    RiskManager.validate_levels [] = true ∧
    (∀ (c₀ : LevelConfig) (cs : List LevelConfig),
      RiskManager.validate_levels (c₀ :: cs) = true ↔
        (((c₀ :: cs).map (fun c => c.step)).Nodup ∧
          (∀ s ∈ (c₀ :: cs).map (fun c => c.step), s ≠ 0 ∧ (0 < s ↔ 0 < c₀.step)) ∧
          (((c₀ :: cs).map (fun c => c.step)).map (fun s => |s|)).Sorted (fun a b => a ≤ b))) ∧
    RiskManager.validate_levels [⟨-2, 1, false⟩, ⟨-5, 1, false⟩, ⟨-10, 1, false⟩] = true := by
  refine ⟨rfl, ?_, by decide⟩
  intro c₀ cs
  simp only [RiskManager.validate_levels]
  by_cases h₁ : ((c₀ :: cs).map (fun c => c.step)).dedup.length
      = ((c₀ :: cs).map (fun c => c.step)).length
  · rw [if_neg (not_not.mpr h₁), if_neg (pySign_ne_zero c₀.step)]
    have hnd : ((c₀ :: cs).map (fun c => c.step)).Nodup := (dedup_length_eq_iff _).mp h₁
    by_cases h₂ : ((c₀ :: cs).map (fun c => c.step)).any
        (fun step => decide (step = 0) || decide (pySign step ≠ pySign c₀.step)) = true
    · rw [if_pos h₂]
      simp only [Bool.false_eq_true, false_iff, not_and]
      intro _ hall _
      simp only [List.any_eq_true, Bool.or_eq_true, decide_eq_true_eq] at h₂
      obtain ⟨s, hs, hbad⟩ := h₂
      rcases hbad with hz | hsign
      · exact (hall s hs).1 hz
      · exact hsign ((pySign_eq_iff s c₀.step).mpr (hall s hs).2)
    · rw [if_neg h₂]
      have hall : ∀ s ∈ (c₀ :: cs).map (fun c => c.step), s ≠ 0 ∧ (0 < s ↔ 0 < c₀.step) := by
        intro s hs
        simp only [List.any_eq_true, Bool.or_eq_true, decide_eq_true_eq, not_exists] at h₂
        push_neg at h₂
        obtain ⟨hz, hsign⟩ := h₂ s hs
        exact ⟨hz, (pySign_eq_iff s c₀.step).mp hsign⟩
      constructor
      · intro hdec
        refine ⟨hnd, hall, ?_⟩
        exact (eq_insertionSort_iff _).mp (of_decide_eq_true hdec)
      · rintro ⟨-, -, hsorted⟩
        exact decide_eq_true ((eq_insertionSort_iff _).mpr hsorted)
  · rw [if_pos h₁]
    simp only [Bool.false_eq_true, false_iff, not_and]
    intro hnd
    exact absurd ((dedup_length_eq_iff _).mpr hnd) h₁

/-- C6 witness: the acceptance criterion instantiated at a concrete
two-level ladder. -/
theorem C6_validate_levels_witness :
    RiskManager.validate_levels [⟨-2, 1, false⟩, ⟨-5, 1, false⟩] = true ↔
      ((([⟨-2, 1, false⟩, ⟨-5, 1, false⟩] : List LevelConfig).map (fun c => c.step)).Nodup ∧
        (∀ s ∈ ([⟨-2, 1, false⟩, ⟨-5, 1, false⟩] : List LevelConfig).map (fun c => c.step),
          s ≠ 0 ∧ (0 < s ↔ 0 < (⟨-2, 1, false⟩ : LevelConfig).step)) ∧
        ((([⟨-2, 1, false⟩, ⟨-5, 1, false⟩] : List LevelConfig).map (fun c => c.step)).map
          (fun s => |s|)).Sorted (fun a b => a ≤ b)) :=
  C6_validate_levels.2.1 ⟨-2, 1, false⟩ [⟨-5, 1, false⟩]

/-- C7 (amended to a positive entry price; with a non-positive entry the
code returns the empty list instead): for every positive entry price,
level list and side, `calculate_custom_levels` forces each step to the
unfavorable direction (`-|step|` for long, `|step|` for short), computes
each trigger price as `entry * (1 + step/100)`, tags the levels with
sequential indices starting at 1, and returns exactly those levels sorted
ascending by `|step|`. -/
theorem C7_custom_levels (entry : ℚ) (cfg : List LevelConfig) (is_long : Bool)
    (he : 0 < entry) :
    (∀ s : ℚ, forceStep true s = -|s| ∧ forceStep false s = |s|) ∧
    (RiskManager.calculate_custom_levels entry cfg is_long).Perm
      ((cfg.enumFrom 1).map (RiskManager.prepareLevel entry is_long)) ∧
    (RiskManager.calculate_custom_levels entry cfg is_long).Sorted
      (fun a b => |a.step| ≤ |b.step|) ∧
    (∀ lvl ∈ RiskManager.calculate_custom_levels entry cfg is_long,
      lvl.price = entry * (1 + lvl.step / 100) ∧
      (is_long = true → lvl.step ≤ 0) ∧ (is_long = false → 0 ≤ lvl.step)) ∧
    ((RiskManager.calculate_custom_levels entry cfg is_long).map (fun l => l.level)).Perm
      (List.range' 1 cfg.length) := by
  have hforce : ∀ s : ℚ, forceStep true s = -|s| ∧ forceStep false s = |s| := by
    intro s
    constructor
    · show (if 0 < s then -s else s) = -|s|
      rcases lt_or_le 0 s with h | h
      · rw [if_pos h, abs_of_pos h]
      · rw [if_neg (not_lt.mpr h), abs_of_nonpos h, neg_neg]
    · show (if s < 0 then |s| else s) = |s|
      rcases lt_or_le s 0 with h | h
      · rw [if_pos h]
      · rw [if_neg (not_lt.mpr h), abs_of_nonneg h]
  have hout : RiskManager.calculate_custom_levels entry cfg is_long
      = ((cfg.enumFrom 1).map (RiskManager.prepareLevel entry is_long)).insertionSort
          (fun a b => |a.step| ≤ |b.step|) := by
    unfold RiskManager.calculate_custom_levels
    by_cases hc : cfg = []
    · subst hc
      simp
    · rw [if_neg]
      push_neg
      exact ⟨he, hc⟩
  refine ⟨hforce, ?_, ?_, ?_, ?_⟩
  · rw [hout]
    exact List.perm_insertionSort _ _
  · rw [hout]
    exact List.sorted_insertionSort _ _
  · intro lvl hl
    rw [hout] at hl
    have hl2 : lvl ∈ (cfg.enumFrom 1).map (RiskManager.prepareLevel entry is_long) :=
      (List.perm_insertionSort _ _).mem_iff.mp hl
    obtain ⟨p, hp, rfl⟩ := List.mem_map.mp hl2
    refine ⟨rfl, ?_, ?_⟩
    · intro hil
      subst hil
      show forceStep true p.2.step ≤ 0
      rw [(hforce p.2.step).1]
      exact neg_nonpos.mpr (abs_nonneg _)
    · intro hil
      subst hil
      show (0 : ℚ) ≤ forceStep false p.2.step
      rw [(hforce p.2.step).2]
      exact abs_nonneg _
  · rw [hout]
    refine ((List.perm_insertionSort _ _).map (fun l : PreparedLevel => l.level)).trans ?_
    rw [List.map_map]
    have hmap : (cfg.enumFrom 1).map ((fun l => l.level) ∘ RiskManager.prepareLevel entry is_long)
        = (cfg.enumFrom 1).map Prod.fst := by
      refine List.map_congr_left ?_
      intro p _
      rfl
    rw [hmap, List.enumFrom_map_fst]

/-- C7 counterexample: at entry price 0 with one input level, the code
returns the empty ladder, so the output neither tags an index-1 level nor
returns the (transformed) input levels, contradicting the universally
quantified claim. -/
theorem C7_custom_levels_counterexample :
    RiskManager.calculate_custom_levels 0 [⟨-2, 1, false⟩] true = [] ∧
    ([⟨-2, 1, false⟩] : List LevelConfig).length = 1 ∧
    (RiskManager.calculate_custom_levels 0 [⟨-2, 1, false⟩] true).map (fun l => l.level) ≠ [1] := by
  refine ⟨by decide, rfl, by decide⟩

/-- C7 witness: the amended claim applied at entry 100 and two long levels:
the output levels carry exactly the indices 1 and 2. -/
theorem C7_custom_levels_witness :
    (0 : ℚ) < 100 ∧
    ((RiskManager.calculate_custom_levels 100 [⟨-2, 1, false⟩, ⟨-5, 2, false⟩] true).map
      (fun l => l.level)).Perm
      (List.range' 1 ([⟨-2, 1, false⟩, ⟨-5, 2, false⟩] : List LevelConfig).length) :=
  ⟨by decide, (C7_custom_levels 100 [⟨-2, 1, false⟩, ⟨-5, 2, false⟩] true (by decide)).2.2.2.2⟩

/-- The long ratchet only writes `current_stop`. -/
theorem TrailingStop.ratchetLong_fields (t : TrailingStop) (c : ℚ) :
    ((t.ratchetLong c).1).extreme_price = t.extreme_price ∧
    ((t.ratchetLong c).1).activated = t.activated ∧
    ((t.ratchetLong c).1).entry_price = t.entry_price ∧
    ((t.ratchetLong c).1).step_percent = t.step_percent ∧
    ((t.ratchetLong c).1).offset_percent = t.offset_percent := by
  simp only [TrailingStop.ratchetLong]
  split_ifs <;> exact ⟨rfl, rfl, rfl, rfl, rfl⟩

/-- The short ratchet only writes `current_stop`. -/
theorem TrailingStop.ratchetShort_fields (t : TrailingStop) (c : ℚ) :
    ((t.ratchetShort c).1).extreme_price = t.extreme_price ∧
    ((t.ratchetShort c).1).activated = t.activated ∧
    ((t.ratchetShort c).1).entry_price = t.entry_price ∧
    ((t.ratchetShort c).1).step_percent = t.step_percent ∧
    ((t.ratchetShort c).1).offset_percent = t.offset_percent := by
  simp only [TrailingStop.ratchetShort]
  split_ifs <;> exact ⟨rfl, rfl, rfl, rfl, rfl⟩

/-- Long ratchet with a set stop: either the stop is untouched, or it
strictly rises to the candidate and the relative move reaches
`step_percent`. -/
theorem TrailingStop.ratchetLong_stop_pos (t : TrailingStop) (c : ℚ)
    (h : 0 < t.current_stop) :
    ((t.ratchetLong c).1).current_stop = t.current_stop ∨
      (t.current_stop < ((t.ratchetLong c).1).current_stop ∧
        ((t.ratchetLong c).1).current_stop = c ∧
        t.step_percent ≤ (c - t.current_stop) / t.current_stop * 100) := by
  have h0 : ¬ t.current_stop = 0 := ne_of_gt h
  simp only [TrailingStop.ratchetLong]
  rcases lt_or_le t.current_stop c with hc | hc
  · rw [if_pos (Or.inr hc), if_neg h0]
    split_ifs with hstep
    · exact Or.inr ⟨hc, rfl, hstep⟩
    · exact Or.inl rfl
  · rw [if_neg (by rintro (h' | h') <;> [exact h0 h'; exact absurd h' (not_lt.mpr hc)])]
    exact Or.inl rfl

/-- Short ratchet with a set stop: either untouched, or it strictly falls
to the candidate with a relative move of at least `step_percent`. -/
theorem TrailingStop.ratchetShort_stop_pos (t : TrailingStop) (c : ℚ)
    (h : 0 < t.current_stop) :
    ((t.ratchetShort c).1).current_stop = t.current_stop ∨
      (((t.ratchetShort c).1).current_stop < t.current_stop ∧
        ((t.ratchetShort c).1).current_stop = c ∧
        t.step_percent ≤ (t.current_stop - c) / t.current_stop * 100) := by
  have h0 : ¬ t.current_stop = 0 := ne_of_gt h
  simp only [TrailingStop.ratchetShort]
  rcases lt_or_le c t.current_stop with hc | hc
  · rw [if_pos (Or.inr hc), if_neg h0]
    split_ifs with hstep
    · exact Or.inr ⟨hc, rfl, hstep⟩
    · exact Or.inl rfl
  · rw [if_neg (by rintro (h' | h') <;> [exact h0 h'; exact absurd h' (not_lt.mpr hc)])]
    exact Or.inl rfl

/-- Long ratchet with an unset stop: the candidate is taken and returned
unconditionally. -/
theorem TrailingStop.ratchetLong_stop_zero (t : TrailingStop) (c : ℚ)
    (h : t.current_stop = 0) :
    ((t.ratchetLong c).1).current_stop = c ∧ (t.ratchetLong c).2 = some c := by
  simp only [TrailingStop.ratchetLong]
  rw [if_pos (Or.inl h), if_pos h]
  exact ⟨rfl, rfl⟩

/-- Short ratchet with an unset stop: the candidate is taken and returned
unconditionally. -/
theorem TrailingStop.ratchetShort_stop_zero (t : TrailingStop) (c : ℚ)
    (h : t.current_stop = 0) :
    ((t.ratchetShort c).1).current_stop = c ∧ (t.ratchetShort c).2 = some c := by
  simp only [TrailingStop.ratchetShort]
  rw [if_pos (Or.inl h), if_pos h]
  exact ⟨rfl, rfl⟩

/-- Field accounting of the long advance step. -/
theorem TrailingStop.advanceLong_spec (ts : TrailingStop) (p : ℚ) :
    (ts.advanceLong p).extreme_price
        = (if ts.extreme_price < p then p else ts.extreme_price) ∧
    (ts.advanceLong p).activated
        = (ts.activated || decide (ts.activation_percent ≤
            ((if ts.extreme_price < p then p else ts.extreme_price) - ts.entry_price)
              / ts.entry_price * 100)) ∧
    (ts.advanceLong p).current_stop = ts.current_stop ∧
    (ts.advanceLong p).entry_price = ts.entry_price ∧
    (ts.advanceLong p).step_percent = ts.step_percent ∧
    (ts.advanceLong p).offset_percent = ts.offset_percent :=
  ⟨rfl, rfl, rfl, rfl, rfl, rfl⟩

/-- Field accounting of the short advance step. -/
theorem TrailingStop.advanceShort_spec (ts : TrailingStop) (p : ℚ) :
    (ts.advanceShort p).extreme_price
        = (if ts.extreme_price = 0 ∨ p < ts.extreme_price then p else ts.extreme_price) ∧
    (ts.advanceShort p).activated
        = (ts.activated || decide (ts.activation_percent ≤
            (ts.entry_price - (if ts.extreme_price = 0 ∨ p < ts.extreme_price then p
              else ts.extreme_price)) / ts.entry_price * 100)) ∧
    (ts.advanceShort p).current_stop = ts.current_stop ∧
    (ts.advanceShort p).entry_price = ts.entry_price ∧
    (ts.advanceShort p).step_percent = ts.step_percent ∧
    (ts.advanceShort p).offset_percent = ts.offset_percent :=
  ⟨rfl, rfl, rfl, rfl, rfl, rfl⟩

/-- The long update's extreme, activation and configuration all agree with
the advance step (the ratchet only writes the stop). -/
theorem TrailingStop.updateLong_state (ts : TrailingStop) (p : ℚ) (atr : Option ℚ) :
    ((ts.updateLong p atr).1).extreme_price = (ts.advanceLong p).extreme_price ∧
    ((ts.updateLong p atr).1).activated = (ts.advanceLong p).activated ∧
    ((ts.updateLong p atr).1).entry_price = ts.entry_price ∧
    ((ts.updateLong p atr).1).step_percent = ts.step_percent ∧
    ((ts.updateLong p atr).1).offset_percent = ts.offset_percent := by
  simp only [TrailingStop.updateLong]
  split_ifs <;> simp [TrailingStop.ratchetLong_fields, TrailingStop.advanceLong_spec]

/-- The short update's extreme, activation and configuration all agree
with the advance step. -/
theorem TrailingStop.updateShort_state (ts : TrailingStop) (p : ℚ) (atr : Option ℚ) :
    ((ts.updateShort p atr).1).extreme_price = (ts.advanceShort p).extreme_price ∧
    ((ts.updateShort p atr).1).activated = (ts.advanceShort p).activated ∧
    ((ts.updateShort p atr).1).entry_price = ts.entry_price ∧
    ((ts.updateShort p atr).1).step_percent = ts.step_percent ∧
    ((ts.updateShort p atr).1).offset_percent = ts.offset_percent := by
  simp only [TrailingStop.updateShort]
  split_ifs <;> simp [TrailingStop.ratchetShort_fields, TrailingStop.advanceShort_spec]

/-- The live long update with no ATR input: a set stop is either untouched
or strictly raised to the percent candidate with a relative move of at
least `step_percent`. -/
theorem TrailingStop.updateLong_stop_pos (ts : TrailingStop) (p : ℚ)
    (h : 0 < ts.current_stop) :
    ((ts.updateLong p none).1).current_stop = ts.current_stop ∨
      (ts.current_stop < ((ts.updateLong p none).1).current_stop ∧
        ((ts.updateLong p none).1).current_stop
          = ((ts.updateLong p none).1).extreme_price * (1 - ts.offset_percent / 100) ∧
        ts.step_percent ≤
          (((ts.updateLong p none).1).extreme_price * (1 - ts.offset_percent / 100)
            - ts.current_stop) / ts.current_stop * 100) := by
  simp only [TrailingStop.updateLong]
  split_ifs with ha hatr
  · exact Or.inl rfl
  · simp [atrPositive] at hatr
  · rw [(TrailingStop.ratchetLong_fields _ _).1]
    exact TrailingStop.ratchetLong_stop_pos _ _ h

/-- The live short update with no ATR input: a set stop is either
untouched or strictly lowered to the percent candidate with a relative
move of at least `step_percent`. -/
theorem TrailingStop.updateShort_stop_pos (ts : TrailingStop) (p : ℚ)
    (h : 0 < ts.current_stop) :
    ((ts.updateShort p none).1).current_stop = ts.current_stop ∨
      (((ts.updateShort p none).1).current_stop < ts.current_stop ∧
        ((ts.updateShort p none).1).current_stop
          = ((ts.updateShort p none).1).extreme_price * (1 + ts.offset_percent / 100) ∧
        ts.step_percent ≤
          (ts.current_stop
            - ((ts.updateShort p none).1).extreme_price * (1 + ts.offset_percent / 100))
            / ts.current_stop * 100) := by
  simp only [TrailingStop.updateShort]
  split_ifs with ha hatr
  · exact Or.inl rfl
  · simp [atrPositive] at hatr
  · rw [(TrailingStop.ratchetShort_fields _ _).1]
    exact TrailingStop.ratchetShort_stop_pos _ _ h

/-- The first stop after activation (long, no ATR): with the stop unset
and the update activated, the percent candidate is taken and returned
unconditionally. -/
theorem TrailingStop.updateLong_stop_zero (ts : TrailingStop) (p : ℚ)
    (h : ts.current_stop = 0)
    (hact : ((ts.updateLong p none).1).activated = true) :
    ((ts.updateLong p none).1).current_stop
        = ((ts.updateLong p none).1).extreme_price * (1 - ts.offset_percent / 100) ∧
      (ts.updateLong p none).2
        = some (((ts.updateLong p none).1).extreme_price * (1 - ts.offset_percent / 100)) := by
  simp only [TrailingStop.updateLong] at hact ⊢
  split_ifs at hact ⊢ with ha hatr
  · dsimp only at hact
    rw [ha] at hact
    exact absurd hact (by decide)
  · simp [atrPositive] at hatr
  · rw [(TrailingStop.ratchetLong_fields _ _).1]
    exact TrailingStop.ratchetLong_stop_zero _ _ h

/-- The first stop after activation (short, no ATR). -/
theorem TrailingStop.updateShort_stop_zero (ts : TrailingStop) (p : ℚ)
    (h : ts.current_stop = 0)
    (hact : ((ts.updateShort p none).1).activated = true) :
    ((ts.updateShort p none).1).current_stop
        = ((ts.updateShort p none).1).extreme_price * (1 + ts.offset_percent / 100) ∧
      (ts.updateShort p none).2
        = some (((ts.updateShort p none).1).extreme_price * (1 + ts.offset_percent / 100)) := by
  simp only [TrailingStop.updateShort] at hact ⊢
  split_ifs at hact ⊢ with ha hatr
  · dsimp only at hact
    rw [ha] at hact
    exact absurd hact (by decide)
  · simp [atrPositive] at hatr
  · rw [(TrailingStop.ratchetShort_fields _ _).1]
    exact TrailingStop.ratchetShort_stop_zero _ _ h

/-- A non-positive price or entry makes the update a no-op. -/
theorem TrailingStop.update_guard (ts : TrailingStop) (p : ℚ) (il : Bool) (atr : Option ℚ)
    (h : p ≤ 0 ∨ ts.entry_price ≤ 0) : ts.update p il atr = (ts, none) := by
  simp only [TrailingStop.update]
  rw [if_pos h]

/-- A live long update dispatches to the long branch. -/
theorem TrailingStop.update_live_long (ts : TrailingStop) (p : ℚ) (atr : Option ℚ)
    (hp : 0 < p) (he : 0 < ts.entry_price) :
    ts.update p true atr = ts.updateLong p atr := by
  simp only [TrailingStop.update]
  rw [if_neg (by push_neg; exact ⟨hp, he⟩)]
  simp

/-- A live short update dispatches to the short branch. -/
theorem TrailingStop.update_live_short (ts : TrailingStop) (p : ℚ) (atr : Option ℚ)
    (hp : 0 < p) (he : 0 < ts.entry_price) :
    ts.update p false atr = ts.updateShort p atr := by
  simp only [TrailingStop.update]
  rw [if_neg (by push_neg; exact ⟨hp, he⟩)]
  simp

/-- One long update never lowers the extreme. -/
theorem TrailingStop.update_long_extreme_le (ts : TrailingStop) (p : ℚ) (atr : Option ℚ) :
    ts.extreme_price ≤ ((ts.update p true atr).1).extreme_price := by
  by_cases hg : p ≤ 0 ∨ ts.entry_price ≤ 0
  · rw [TrailingStop.update_guard ts p true atr hg]
  · push_neg at hg
    rw [TrailingStop.update_live_long ts p atr hg.1 hg.2,
      (TrailingStop.updateLong_state ts p atr).1, (TrailingStop.advanceLong_spec ts p).1]
    split_ifs with h
    · exact le_of_lt h
    · exact le_refl _

/-- One live long update tracks the running max of extreme and price. -/
theorem TrailingStop.update_long_extreme_max (ts : TrailingStop) (p : ℚ) (atr : Option ℚ)
    (hp : 0 < p) (he : 0 < ts.entry_price) :
    ((ts.update p true atr).1).extreme_price = max ts.extreme_price p := by
  rw [TrailingStop.update_live_long ts p atr hp he,
    (TrailingStop.updateLong_state ts p atr).1, (TrailingStop.advanceLong_spec ts p).1]
  rcases lt_or_le ts.extreme_price p with h | h
  · rw [if_pos h, max_eq_right (le_of_lt h)]
  · rw [if_neg (not_lt.mpr h), max_eq_left h]

/-- One short update with a positive extreme never raises it and keeps it
positive. -/
theorem TrailingStop.update_short_extreme_le (ts : TrailingStop) (p : ℚ) (atr : Option ℚ)
    (hx : 0 < ts.extreme_price) :
    ((ts.update p false atr).1).extreme_price ≤ ts.extreme_price ∧
      0 < ((ts.update p false atr).1).extreme_price := by
  by_cases hg : p ≤ 0 ∨ ts.entry_price ≤ 0
  · rw [TrailingStop.update_guard ts p false atr hg]
    exact ⟨le_refl _, hx⟩
  · push_neg at hg
    rw [TrailingStop.update_live_short ts p atr hg.1 hg.2,
      (TrailingStop.updateShort_state ts p atr).1, (TrailingStop.advanceShort_spec ts p).1]
    split_ifs with h
    · rcases h with h | h
      · exact absurd h (ne_of_gt hx)
      · exact ⟨le_of_lt h, hg.1⟩
    · exact ⟨le_refl _, hx⟩

/-- One live short update with a positive extreme tracks the running min. -/
theorem TrailingStop.update_short_extreme_min (ts : TrailingStop) (p : ℚ) (atr : Option ℚ)
    (hp : 0 < p) (he : 0 < ts.entry_price) (hx : 0 < ts.extreme_price) :
    ((ts.update p false atr).1).extreme_price = min ts.extreme_price p := by
  rw [TrailingStop.update_live_short ts p atr hp he,
    (TrailingStop.updateShort_state ts p atr).1, (TrailingStop.advanceShort_spec ts p).1]
  rcases lt_or_le p ts.extreme_price with h | h
  · rw [if_pos (Or.inr h), min_eq_right (le_of_lt h)]
  · rw [if_neg (by rintro (h0 | hlt) <;>
        [exact (ne_of_gt hx) h0; exact absurd hlt (not_lt.mpr h)]), min_eq_left h]

/-- Long activation: from an unactivated state, a live update activates
exactly when the profit of the new extreme over entry reaches the
threshold. -/
theorem TrailingStop.update_long_activation (ts : TrailingStop) (p : ℚ) (atr : Option ℚ)
    (hp : 0 < p) (he : 0 < ts.entry_price) (hna : ts.activated = false) :
    (((ts.update p true atr).1).activated = true ↔
      ts.activation_percent ≤
        (((ts.update p true atr).1).extreme_price - ts.entry_price)
          / ts.entry_price * 100) := by
  rw [TrailingStop.update_live_long ts p atr hp he,
    (TrailingStop.updateLong_state ts p atr).2.1, (TrailingStop.updateLong_state ts p atr).1,
    (TrailingStop.advanceLong_spec ts p).2.1, (TrailingStop.advanceLong_spec ts p).1, hna]
  simp

/-- Short activation: mirror of the long case. -/
theorem TrailingStop.update_short_activation (ts : TrailingStop) (p : ℚ) (atr : Option ℚ)
    (hp : 0 < p) (he : 0 < ts.entry_price) (hna : ts.activated = false) :
    (((ts.update p false atr).1).activated = true ↔
      ts.activation_percent ≤
        (ts.entry_price - ((ts.update p false atr).1).extreme_price)
          / ts.entry_price * 100) := by
  rw [TrailingStop.update_live_short ts p atr hp he,
    (TrailingStop.updateShort_state ts p atr).2.1, (TrailingStop.updateShort_state ts p atr).1,
    (TrailingStop.advanceShort_spec ts p).2.1, (TrailingStop.advanceShort_spec ts p).1, hna]
  simp

/-- Activation is latched: once activated, every later update stays
activated. -/
theorem TrailingStop.update_activated_mono (ts : TrailingStop) (p : ℚ) (il : Bool)
    (atr : Option ℚ) (h : ts.activated = true) :
    ((ts.update p il atr).1).activated = true := by
  by_cases hg : p ≤ 0 ∨ ts.entry_price ≤ 0
  · rw [TrailingStop.update_guard ts p il atr hg]
    exact h
  · push_neg at hg
    cases il
    · rw [TrailingStop.update_live_short ts p atr hg.1 hg.2,
        (TrailingStop.updateShort_state ts p atr).2.1,
        (TrailingStop.advanceShort_spec ts p).2.1, h]
      simp
    · rw [TrailingStop.update_live_long ts p atr hg.1 hg.2,
        (TrailingStop.updateLong_state ts p atr).2.1,
        (TrailingStop.advanceLong_spec ts p).2.1, h]
      simp

/-- Long stop step at the update level (no ATR): a set stop is untouched
or strictly raised to the percent candidate with a `step_percent` move. -/
theorem TrailingStop.update_long_stop_cases (ts : TrailingStop) (p : ℚ)
    (h : 0 < ts.current_stop) :
    ((ts.update p true none).1).current_stop = ts.current_stop ∨
      (ts.current_stop < ((ts.update p true none).1).current_stop ∧
        ((ts.update p true none).1).current_stop
          = ((ts.update p true none).1).extreme_price * (1 - ts.offset_percent / 100) ∧
        ts.step_percent ≤
          (((ts.update p true none).1).extreme_price * (1 - ts.offset_percent / 100)
            - ts.current_stop) / ts.current_stop * 100) := by
  by_cases hg : p ≤ 0 ∨ ts.entry_price ≤ 0
  · rw [TrailingStop.update_guard ts p true none hg]
    exact Or.inl rfl
  · push_neg at hg
    rw [TrailingStop.update_live_long ts p none hg.1 hg.2]
    exact TrailingStop.updateLong_stop_pos ts p h

/-- Short stop step at the update level (no ATR): mirror image. -/
theorem TrailingStop.update_short_stop_cases (ts : TrailingStop) (p : ℚ)
    (h : 0 < ts.current_stop) :
    ((ts.update p false none).1).current_stop = ts.current_stop ∨
      (((ts.update p false none).1).current_stop < ts.current_stop ∧
        ((ts.update p false none).1).current_stop
          = ((ts.update p false none).1).extreme_price * (1 + ts.offset_percent / 100) ∧
        ts.step_percent ≤
          (ts.current_stop
            - ((ts.update p false none).1).extreme_price * (1 + ts.offset_percent / 100))
            / ts.current_stop * 100) := by
  by_cases hg : p ≤ 0 ∨ ts.entry_price ≤ 0
  · rw [TrailingStop.update_guard ts p false none hg]
    exact Or.inl rfl
  · push_neg at hg
    rw [TrailingStop.update_live_short ts p none hg.1 hg.2]
    exact TrailingStop.updateShort_stop_pos ts p h

/-- First stop after activation (long): taken unconditionally. -/
theorem TrailingStop.update_long_first_stop (ts : TrailingStop) (p : ℚ)
    (hp : 0 < p) (he : 0 < ts.entry_price) (h : ts.current_stop = 0)
    (hact : ((ts.update p true none).1).activated = true) :
    ((ts.update p true none).1).current_stop
        = ((ts.update p true none).1).extreme_price * (1 - ts.offset_percent / 100) ∧
      (ts.update p true none).2
        = some (((ts.update p true none).1).extreme_price
            * (1 - ts.offset_percent / 100)) := by
  rw [TrailingStop.update_live_long ts p none hp he] at hact ⊢
  exact TrailingStop.updateLong_stop_zero ts p h hact

/-- First stop after activation (short): taken unconditionally. -/
theorem TrailingStop.update_short_first_stop (ts : TrailingStop) (p : ℚ)
    (hp : 0 < p) (he : 0 < ts.entry_price) (h : ts.current_stop = 0)
    (hact : ((ts.update p false none).1).activated = true) :
    ((ts.update p false none).1).current_stop
        = ((ts.update p false none).1).extreme_price * (1 + ts.offset_percent / 100) ∧
      (ts.update p false none).2
        = some (((ts.update p false none).1).extreme_price
            * (1 + ts.offset_percent / 100)) := by
  rw [TrailingStop.update_live_short ts p none hp he] at hact ⊢
  exact TrailingStop.updateShort_stop_zero ts p h hact

/-- The update never changes the offset parameter. -/
theorem TrailingStop.update_offset_eq (ts : TrailingStop) (p : ℚ) (il : Bool)
    (atr : Option ℚ) : ((ts.update p il atr).1).offset_percent = ts.offset_percent := by
  by_cases hg : p ≤ 0 ∨ ts.entry_price ≤ 0
  · rw [TrailingStop.update_guard ts p il atr hg]
  · push_neg at hg
    cases il
    · rw [TrailingStop.update_live_short ts p atr hg.1 hg.2]
      exact (TrailingStop.updateShort_state ts p atr).2.2.2.2
    · rw [TrailingStop.update_live_long ts p atr hg.1 hg.2]
      exact (TrailingStop.updateLong_state ts p atr).2.2.2.2

/-- One long update never lowers a set (positive) stop. -/
theorem TrailingStop.update_long_stop_le (ts : TrailingStop) (p : ℚ)
    (h : 0 < ts.current_stop) :
    ts.current_stop ≤ ((ts.update p true none).1).current_stop := by
  rcases TrailingStop.update_long_stop_cases ts p h with h1 | ⟨h1, -, -⟩
  · rw [h1]
  · exact le_of_lt h1

/-- One short update never raises a set stop, and keeps it positive
(nonnegative offset, positive extreme). -/
theorem TrailingStop.update_short_stop_le (ts : TrailingStop) (p : ℚ)
    (h : 0 < ts.current_stop) (hx : 0 < ts.extreme_price) (ho : 0 ≤ ts.offset_percent) :
    ((ts.update p false none).1).current_stop ≤ ts.current_stop ∧
      0 < ((ts.update p false none).1).current_stop := by
  have hx2 := (TrailingStop.update_short_extreme_le ts p none hx).2
  rcases TrailingStop.update_short_stop_cases ts p h with h1 | ⟨h1, h2, -⟩
  · rw [h1]
    exact ⟨le_refl _, h⟩
  · refine ⟨le_of_lt h1, ?_⟩
    rw [h2]
    have hpos : (0:ℚ) < 1 + ts.offset_percent / 100 := by linarith
    exact mul_pos hx2 hpos

/-- Across any price sequence the long extreme never retreats. -/
theorem TrailingStop.runUpdates_long_extreme (ps : List ℚ) : ∀ ts : TrailingStop,
    ts.extreme_price ≤ (ts.runUpdates ps true).extreme_price := by
  induction ps with
  | nil => intro ts; exact le_refl _
  | cons p ps ih =>
    intro ts
    exact le_trans (TrailingStop.update_long_extreme_le ts p none) (ih _)

/-- Across any price sequence a positive short extreme never rises and
stays positive. -/
theorem TrailingStop.runUpdates_short_extreme (ps : List ℚ) : ∀ ts : TrailingStop,
    0 < ts.extreme_price →
      (ts.runUpdates ps false).extreme_price ≤ ts.extreme_price ∧
        0 < (ts.runUpdates ps false).extreme_price := by
  induction ps with
  | nil => intro ts hx; exact ⟨le_refl _, hx⟩
  | cons p ps ih =>
    intro ts hx
    obtain ⟨h1, h2⟩ := TrailingStop.update_short_extreme_le ts p none hx
    obtain ⟨h3, h4⟩ := ih _ h2
    exact ⟨le_trans h3 h1, h4⟩

/-- Across any price sequence a set long stop only ever moves up. -/
theorem TrailingStop.runUpdates_long_stop (ps : List ℚ) : ∀ ts : TrailingStop,
    0 < ts.current_stop → ts.current_stop ≤ (ts.runUpdates ps true).current_stop := by
  induction ps with
  | nil => intro ts _; exact le_refl _
  | cons p ps ih =>
    intro ts h
    have h1 := TrailingStop.update_long_stop_le ts p h
    exact le_trans h1 (ih _ (lt_of_lt_of_le h h1))

/-- Across any price sequence a set short stop only ever moves down
(nonnegative offset, positive extreme). -/
theorem TrailingStop.runUpdates_short_stop (ps : List ℚ) : ∀ ts : TrailingStop,
    0 < ts.current_stop → 0 < ts.extreme_price → 0 ≤ ts.offset_percent →
      (ts.runUpdates ps false).current_stop ≤ ts.current_stop := by
  induction ps with
  | nil => intro ts _ _ _; exact le_refl _
  | cons p ps ih =>
    intro ts h hx ho
    obtain ⟨h1, h2⟩ := TrailingStop.update_short_stop_le ts p h hx ho
    have hx2 := (TrailingStop.update_short_extreme_le ts p none hx).2
    have ho2 : 0 ≤ ((ts.update p false none).1).offset_percent := by
      rw [TrailingStop.update_offset_eq]
      exact ho
    exact le_trans (ih _ h2 hx2 ho2) h1

/-- C4: trailing-stop invariants over every update sequence for a fixed
direction. The extreme never retreats (running max for long, running min
for short on live updates); from an unactivated state a live update
activates exactly when the profit of the new extreme over entry reaches
`activation_percent`, and activation is latched; a set stop only ever
moves in the favorable direction, changing only to the candidate
`extreme ∓ offset_percent%` when that candidate is strictly more
favorable and the relative move from the current stop reaches
`step_percent`, while the first stop after activation is set
unconditionally; and in the concrete long scenario entry=100,
activation=1%, offset=0.8%, step=0.5%, price 102 activates and sets stop
101.184 (= 12648/125), and price 103 moves it to 102.176 (= 12772/125),
the relative move 0.98% being ≥ 0.5%. -/
theorem C4_trailing_stop :
    (∀ (ts : TrailingStop) (ps : List ℚ),
      ts.extreme_price ≤ (ts.runUpdates ps true).extreme_price) ∧
    (∀ (ts : TrailingStop) (p : ℚ) (atr : Option ℚ), 0 < p → 0 < ts.entry_price →
      ((ts.update p true atr).1).extreme_price = max ts.extreme_price p) ∧
    (∀ (ts : TrailingStop) (ps : List ℚ), 0 < ts.extreme_price →
      (ts.runUpdates ps false).extreme_price ≤ ts.extreme_price) ∧
    (∀ (ts : TrailingStop) (p : ℚ) (atr : Option ℚ), 0 < p → 0 < ts.entry_price →
      0 < ts.extreme_price →
      ((ts.update p false atr).1).extreme_price = min ts.extreme_price p) ∧
    (∀ (ts : TrailingStop) (p : ℚ) (atr : Option ℚ), 0 < p → 0 < ts.entry_price →
      ts.activated = false →
      (((ts.update p true atr).1).activated = true ↔
        ts.activation_percent ≤
          (((ts.update p true atr).1).extreme_price - ts.entry_price)
            / ts.entry_price * 100)) ∧
    (∀ (ts : TrailingStop) (p : ℚ) (atr : Option ℚ), 0 < p → 0 < ts.entry_price →
      ts.activated = false →
      (((ts.update p false atr).1).activated = true ↔
        ts.activation_percent ≤
          (ts.entry_price - ((ts.update p false atr).1).extreme_price)
            / ts.entry_price * 100)) ∧
    (∀ (ts : TrailingStop) (p : ℚ) (il : Bool) (atr : Option ℚ), ts.activated = true →
      ((ts.update p il atr).1).activated = true) ∧
    (∀ (ts : TrailingStop) (p : ℚ), 0 < ts.current_stop →
      ((ts.update p true none).1).current_stop = ts.current_stop ∨
        (ts.current_stop < ((ts.update p true none).1).current_stop ∧
          ((ts.update p true none).1).current_stop
            = ((ts.update p true none).1).extreme_price * (1 - ts.offset_percent / 100) ∧
          ts.step_percent ≤
            (((ts.update p true none).1).extreme_price * (1 - ts.offset_percent / 100)
              - ts.current_stop) / ts.current_stop * 100)) ∧
    (∀ (ts : TrailingStop) (p : ℚ), 0 < ts.current_stop →
      ((ts.update p false none).1).current_stop = ts.current_stop ∨
        (((ts.update p false none).1).current_stop < ts.current_stop ∧
          ((ts.update p false none).1).current_stop
            = ((ts.update p false none).1).extreme_price * (1 + ts.offset_percent / 100) ∧
          ts.step_percent ≤
            (ts.current_stop
              - ((ts.update p false none).1).extreme_price * (1 + ts.offset_percent / 100))
              / ts.current_stop * 100)) ∧
    (∀ (ts : TrailingStop) (p : ℚ), 0 < p → 0 < ts.entry_price → ts.current_stop = 0 →
      ((ts.update p true none).1).activated = true →
      ((ts.update p true none).1).current_stop
        = ((ts.update p true none).1).extreme_price * (1 - ts.offset_percent / 100)) ∧
    (∀ (ts : TrailingStop) (p : ℚ), 0 < p → 0 < ts.entry_price → ts.current_stop = 0 →
      ((ts.update p false none).1).activated = true →
      ((ts.update p false none).1).current_stop
        = ((ts.update p false none).1).extreme_price * (1 + ts.offset_percent / 100)) ∧
    (∀ (ts : TrailingStop) (ps : List ℚ), 0 < ts.current_stop →
      ts.current_stop ≤ (ts.runUpdates ps true).current_stop) ∧
    (∀ (ts : TrailingStop) (ps : List ℚ), 0 < ts.current_stop → 0 < ts.extreme_price →
      0 ≤ ts.offset_percent →
      (ts.runUpdates ps false).current_stop ≤ ts.current_stop) ∧
    ((((TrailingStop.create 1 (1/2) (4/5) false 2).initAt 100).update 102 true
        none).1.activated = true ∧
      (((TrailingStop.create 1 (1/2) (4/5) false 2).initAt 100).update 102 true
        none).1.current_stop = 12648/125 ∧
      (((((TrailingStop.create 1 (1/2) (4/5) false 2).initAt 100).update 102 true
        none).1).update 103 true none).1.current_stop = 12772/125) := by
  refine ⟨fun ts ps => TrailingStop.runUpdates_long_extreme ps ts,
    fun ts p atr hp he => TrailingStop.update_long_extreme_max ts p atr hp he,
    fun ts ps hx => (TrailingStop.runUpdates_short_extreme ps ts hx).1,
    fun ts p atr hp he hx => TrailingStop.update_short_extreme_min ts p atr hp he hx,
    fun ts p atr hp he hna => TrailingStop.update_long_activation ts p atr hp he hna,
    fun ts p atr hp he hna => TrailingStop.update_short_activation ts p atr hp he hna,
    fun ts p il atr h => TrailingStop.update_activated_mono ts p il atr h,
    fun ts p h => TrailingStop.update_long_stop_cases ts p h,
    fun ts p h => TrailingStop.update_short_stop_cases ts p h,
    fun ts p hp he h0 hact => (TrailingStop.update_long_first_stop ts p hp he h0 hact).1,
    fun ts p hp he h0 hact => (TrailingStop.update_short_first_stop ts p hp he h0 hact).1,
    fun ts ps h => TrailingStop.runUpdates_long_stop ps ts h,
    fun ts ps h hx ho => TrailingStop.runUpdates_short_stop ps ts h hx ho,
    ?_, ?_, ?_⟩
  · norm_num [TrailingStop.create, TrailingStop.initAt, TrailingStop.update,
      TrailingStop.updateLong, TrailingStop.advanceLong, TrailingStop.ratchetLong, atrPositive]
  · norm_num [TrailingStop.create, TrailingStop.initAt, TrailingStop.update,
      TrailingStop.updateLong, TrailingStop.advanceLong, TrailingStop.ratchetLong, atrPositive]
  · norm_num [TrailingStop.create, TrailingStop.initAt, TrailingStop.update,
      TrailingStop.updateLong, TrailingStop.advanceLong, TrailingStop.ratchetLong, atrPositive]

/-- C4 witness: the running-max fact and the stop-ratchet case split
applied at a concrete activated long state (entry 100, extreme 102,
stop 101) with price 103. -/
theorem C4_trailing_stop_witness :
    (0:ℚ) < 103 ∧
    0 < (⟨1, 1/2, 4/5, false, 2, 102, 100, true, 101⟩ : TrailingStop).entry_price ∧
    0 < (⟨1, 1/2, 4/5, false, 2, 102, 100, true, 101⟩ : TrailingStop).current_stop ∧
    (((⟨1, 1/2, 4/5, false, 2, 102, 100, true, 101⟩ : TrailingStop).update 103 true
        none).1).extreme_price
      = max (⟨1, 1/2, 4/5, false, 2, 102, 100, true, 101⟩ : TrailingStop).extreme_price 103 ∧
    ((((⟨1, 1/2, 4/5, false, 2, 102, 100, true, 101⟩ : TrailingStop).update 103 true
          none).1).current_stop
        = (⟨1, 1/2, 4/5, false, 2, 102, 100, true, 101⟩ : TrailingStop).current_stop ∨
      ((⟨1, 1/2, 4/5, false, 2, 102, 100, true, 101⟩ : TrailingStop).current_stop
          < (((⟨1, 1/2, 4/5, false, 2, 102, 100, true, 101⟩ : TrailingStop).update 103 true
              none).1).current_stop ∧
        (((⟨1, 1/2, 4/5, false, 2, 102, 100, true, 101⟩ : TrailingStop).update 103 true
            none).1).current_stop
          = (((⟨1, 1/2, 4/5, false, 2, 102, 100, true, 101⟩ : TrailingStop).update 103 true
              none).1).extreme_price
            * (1 - (⟨1, 1/2, 4/5, false, 2, 102, 100, true, 101⟩ :
                TrailingStop).offset_percent / 100) ∧
        (⟨1, 1/2, 4/5, false, 2, 102, 100, true, 101⟩ : TrailingStop).step_percent ≤
          ((((⟨1, 1/2, 4/5, false, 2, 102, 100, true, 101⟩ : TrailingStop).update 103 true
              none).1).extreme_price
            * (1 - (⟨1, 1/2, 4/5, false, 2, 102, 100, true, 101⟩ :
                TrailingStop).offset_percent / 100)
            - (⟨1, 1/2, 4/5, false, 2, 102, 100, true, 101⟩ : TrailingStop).current_stop)
            / (⟨1, 1/2, 4/5, false, 2, 102, 100, true, 101⟩ : TrailingStop).current_stop
            * 100)) :=
  ⟨by decide, by decide, by decide,
   C4_trailing_stop.2.1 ⟨1, 1/2, 4/5, false, 2, 102, 100, true, 101⟩ 103 none
     (by decide) (by decide),
   C4_trailing_stop.2.2.2.2.2.2.2.1 ⟨1, 1/2, 4/5, false, 2, 102, 100, true, 101⟩ 103
     (by decide)⟩

/-- With a positive attempt bound and at least `max_attempts - attempts`
scripted iterations, the retry loop always terminates (it never consumes
more than the bound). -/
theorem retry_bounded (script : List AttemptEnv) : ∀ (mkt : Option ExchOrder) (n : ℕ)
    (fb : Bool) (price : ℚ) (a : ℕ), n ≠ 0 → n ≤ a + script.length →
    place_limit_order_with_retry script mkt n fb price a ≠ RetryResult.outOfScript := by
  induction script with
  | nil =>
    intro mkt n fb price a hn hle
    have hcond : ¬(n = 0 ∨ a < n) := by
      rintro (h | h)
      · exact hn h
      · simp at hle
        omega
    rw [place_limit_order_with_retry, if_neg hcond]
    split_ifs <;> simp
  | cons env rest ih =>
    intro mkt n fb price a hn hle
    by_cases hcond : n = 0 ∨ a < n
    · rw [place_limit_order_with_retry, if_pos hcond]
      cases hpl : env.placed with
      | none =>
        dsimp only
        exact ih mkt n fb price (a + 1) hn (by simp at hle ⊢; omega)
      | some order =>
        dsimp only
        split_ifs with hopen
        · simp
        all_goals exact ih mkt n fb _ (a + 1) hn (by simp at hle ⊢; omega)
    · rw [place_limit_order_with_retry, if_neg hcond]
      split_ifs <;> simp

/-- With `max_attempts = 0` the loop never exits on its own: as long as no
scripted iteration fills (empty open-order list after a successful
placement), it consumes the whole script and keeps going. -/
theorem retry_unbounded (script : List AttemptEnv) : ∀ (mkt : Option ExchOrder)
    (fb : Bool) (price : ℚ) (a : ℕ),
    (∀ env ∈ script, env.placed = none ∨ env.open_orders ≠ []) →
    place_limit_order_with_retry script mkt 0 fb price a = RetryResult.outOfScript := by
  induction script with
  | nil =>
    intro mkt fb price a _
    rw [place_limit_order_with_retry, if_pos (Or.inl rfl)]
  | cons env rest ih =>
    intro mkt fb price a hnf
    rw [place_limit_order_with_retry, if_pos (Or.inl rfl)]
    cases hpl : env.placed with
    | none =>
      dsimp only
      exact ih mkt fb price (a + 1) (fun e he => hnf e (List.mem_cons_of_mem env he))
    | some order =>
      have hopen : env.open_orders ≠ [] := by
        rcases hnf env (List.mem_cons_self env rest) with h | h
        · rw [hpl] at h
          cases h
        · exact h
      dsimp only
      rw [if_neg hopen]
      exact ih mkt fb _ (a + 1) (fun e he => hnf e (List.mem_cons_of_mem env he))

/-- Success case of one iteration: a live placement whose open-order poll
comes back empty is treated as filled and returned. -/
theorem retry_fill (env : AttemptEnv) (rest : List AttemptEnv) (mkt : Option ExchOrder)
    (n : ℕ) (fb : Bool) (price : ℚ) (a : ℕ) (o : ExchOrder)
    (hcond : n = 0 ∨ a < n) (hpl : env.placed = some o) (hopen : env.open_orders = []) :
    place_limit_order_with_retry (env :: rest) mkt n fb price a
      = RetryResult.done (some o) := by
  rw [place_limit_order_with_retry, if_pos hcond, hpl]
  dsimp only
  rw [if_pos hopen]

/-- Attempt exhaustion: when no scripted iteration fills and the script
covers the remaining attempts, the loop exits and the fallback decides
between one market order and a plain failure. -/
theorem retry_exhaust (script : List AttemptEnv) : ∀ (mkt : Option ExchOrder) (n : ℕ)
    (fb : Bool) (price : ℚ) (a : ℕ), n ≠ 0 →
    (∀ env ∈ script, env.placed = none ∨ env.open_orders ≠ []) →
    n ≤ a + script.length →
    place_limit_order_with_retry script mkt n fb price a
      = (if fb then RetryResult.done mkt else RetryResult.done none) := by
  induction script with
  | nil =>
    intro mkt n fb price a hn _ hle
    have hcond : ¬(n = 0 ∨ a < n) := by
      rintro (h | h)
      · exact hn h
      · simp at hle
        omega
    rw [place_limit_order_with_retry, if_neg hcond]
  | cons env rest ih =>
    intro mkt n fb price a hn hnf hle
    by_cases hcond : n = 0 ∨ a < n
    · rw [place_limit_order_with_retry, if_pos hcond]
      cases hpl : env.placed with
      | none =>
        dsimp only
        exact ih mkt n fb price (a + 1)
          hn (fun e he => hnf e (List.mem_cons_of_mem env he)) (by simp at hle ⊢; omega)
      | some order =>
        have hopen : env.open_orders ≠ [] := by
          rcases hnf env (List.mem_cons_self env rest) with h | h
          · rw [hpl] at h
            cases h
          · exact h
        dsimp only
        rw [if_neg hopen]
        exact ih mkt n fb _ (a + 1)
          hn (fun e he => hnf e (List.mem_cons_of_mem env he)) (by simp at hle ⊢; omega)
    · rw [place_limit_order_with_retry, if_neg hcond]

/-- Requeue case of one iteration: the order is still listed under a
truthy id and the ticker is truthy, so the order is cancelled and the loop
retries with the refreshed price. -/
theorem retry_requeue (env : AttemptEnv) (rest : List AttemptEnv) (mkt : Option ExchOrder)
    (n : ℕ) (fb : Bool) (price t : ℚ) (a : ℕ) (o : ExchOrder)
    (hcond : n = 0 ∨ a < n) (hpl : env.placed = some o) (hopen : env.open_orders ≠ [])
    (hstill : env.open_orders.any (fun x => x.id = o.id) = true) (hid : o.id ≠ "")
    (ht : env.ticker_last = some t) (ht0 : t ≠ 0) :
    place_limit_order_with_retry (env :: rest) mkt n fb price a
      = place_limit_order_with_retry rest mkt n fb t (a + 1) := by
  rw [place_limit_order_with_retry, if_pos hcond, hpl]
  dsimp only
  rw [if_neg hopen]
  have hrefresh : (if env.open_orders.any (fun x => x.id = o.id) && decide (o.id ≠ "") then
      (if tickerTruthy env.ticker_last then env.ticker_last.getD 0 else price) else price) = t := by
    rw [hstill, ht]
    simp [tickerTruthy, ht0, hid]
  rw [hrefresh]

/-- C3 (amended: an iteration counts as filled exactly when the open-order
poll for the symbol comes back EMPTY — if other orders keep the list
non-empty the loop retries even though the placed order is gone): the
retry loop runs at most `max_attempts` iterations when the bound is
positive, and with `max_attempts = 0` it loops past any finite script of
unfilled iterations; an empty open-order poll returns the placed order as
success; an order still listed under a truthy id is cancelled and the loop
retries with the price refreshed from a truthy ticker; on exhaustion
`fallback_to_market = true` returns the single market order's result and
`false` returns failure (`none`). -/
theorem C3_limit_retry :
    (∀ (script : List AttemptEnv) (mkt : Option ExchOrder) (n : ℕ) (fb : Bool) (price : ℚ),
      n ≠ 0 → n ≤ script.length →
      place_limit_order_with_retry script mkt n fb price 0 ≠ RetryResult.outOfScript) ∧
    (∀ (script : List AttemptEnv) (mkt : Option ExchOrder) (fb : Bool) (price : ℚ),
      (∀ env ∈ script, env.placed = none ∨ env.open_orders ≠ []) →
      place_limit_order_with_retry script mkt 0 fb price 0 = RetryResult.outOfScript) ∧
    (∀ (env : AttemptEnv) (rest : List AttemptEnv) (mkt : Option ExchOrder) (n : ℕ)
      (fb : Bool) (price : ℚ) (o : ExchOrder), env.placed = some o →
      env.open_orders = [] →
      place_limit_order_with_retry (env :: rest) mkt n fb price 0
        = RetryResult.done (some o)) ∧
    (∀ (env : AttemptEnv) (rest : List AttemptEnv) (mkt : Option ExchOrder) (n : ℕ)
      (fb : Bool) (price t : ℚ) (o : ExchOrder), env.placed = some o →
      env.open_orders ≠ [] → env.open_orders.any (fun x => x.id = o.id) = true →
      o.id ≠ "" → env.ticker_last = some t → t ≠ 0 →
      place_limit_order_with_retry (env :: rest) mkt n fb price 0
        = place_limit_order_with_retry rest mkt n fb t 1) ∧
    (∀ (script : List AttemptEnv) (mkt : Option ExchOrder) (n : ℕ) (fb : Bool) (price : ℚ),
      n ≠ 0 → (∀ env ∈ script, env.placed = none ∨ env.open_orders ≠ []) →
      n ≤ script.length →
      place_limit_order_with_retry script mkt n fb price 0
        = (if fb then RetryResult.done mkt else RetryResult.done none)) := by
  refine ⟨?_, ?_, ?_, ?_, ?_⟩
  · intro script mkt n fb price hn hle
    exact retry_bounded script mkt n fb price 0 hn (by omega)
  · intro script mkt fb price hnf
    exact retry_unbounded script mkt fb price 0 hnf
  · intro env rest mkt n fb price o hpl hopen
    exact retry_fill env rest mkt n fb price 0 o (Nat.eq_zero_or_pos n) hpl hopen
  · intro env rest mkt n fb price t o hpl hopen hstill hid ht ht0
    exact retry_requeue env rest mkt n fb price t 0 o (Nat.eq_zero_or_pos n)
      hpl hopen hstill hid ht ht0
  · intro script mkt n fb price hn hnf hle
    exact retry_exhaust script mkt n fb price 0 hn hnf (by omega)

/-- C3 counterexample: after the wait the placed order `A` is no longer
among the open orders (only `B` is), yet with `max_attempts = 1` and no
market fallback the code returns failure (`none`) rather than treating
the order as filled and returning success as the claim states. -/
theorem C3_limit_retry_counterexample :
    (([⟨"B"⟩] : List ExchOrder).any (fun x => x.id = "A") = false) ∧
    place_limit_order_with_retry [⟨some ⟨"A"⟩, [⟨"B"⟩], none⟩] none 1 false 1 0
      = RetryResult.done none ∧
    RetryResult.done none ≠ RetryResult.done (some ⟨"A"⟩) :=
  ⟨by decide, by decide, by decide⟩

/-- C3 witness: two attempts that both remain open exhaust the bound; with
the market fallback the result is the market order, without it the result
is failure. -/
theorem C3_limit_retry_witness :
    place_limit_order_with_retry
        [⟨some ⟨"A"⟩, [⟨"A"⟩], none⟩, ⟨some ⟨"A"⟩, [⟨"A"⟩], none⟩]
        (some ⟨"M"⟩) 2 true 1 0 = RetryResult.done (some ⟨"M"⟩) ∧
    place_limit_order_with_retry
        [⟨some ⟨"A"⟩, [⟨"A"⟩], none⟩, ⟨some ⟨"A"⟩, [⟨"A"⟩], none⟩]
        none 2 false 1 0 = RetryResult.done none :=
  ⟨C3_limit_retry.2.2.2.2 _ (some ⟨"M"⟩) 2 true 1 (by decide) (by decide) (by decide),
   C3_limit_retry.2.2.2.2 _ none 2 false 1 (by decide) (by decide) (by decide)⟩

/-- `execute_signal` never reads `capital_mode`: the resulting position
map and return value are invariant under it. -/
theorem execute_signal_capital_invariant (st : TraderState) (cfg : ExecCfg)
    (env : ExecEnv) (symbol signal mode : String) :
    (execute_signal { st with capital_mode := mode } cfg env symbol signal).1.active_positions
      = (execute_signal st cfg env symbol signal).1.active_positions ∧
    (execute_signal { st with capital_mode := mode } cfg env symbol signal).2
      = (execute_signal st cfg env symbol signal).2 := by
  cases st with
  | mk cm aps mpm ib stats =>
    cases env with
    | mk fu tl soid orr =>
      cases tl with
      | none =>
        simp only [execute_signal, can_open_position]
        split_ifs <;> exact ⟨rfl, rfl⟩
      | some last =>
        cases orr with
        | none =>
          simp only [execute_signal, can_open_position]
          split_ifs <;> exact ⟨rfl, rfl⟩
        | some oid =>
          simp only [execute_signal, can_open_position]
          split_ifs <;> exact ⟨rfl, rfl⟩

/-- C1: the capital-mode claim fails in the code. `execute_signal` never
consults `capital_mode` (the position map and result are invariant under
it), and the per-position `locked_balance` is recorded but never summed
into the sizing budget: in "pool" mode with one open position locking
500 USDT and 1000 USDT free (risk 100%, leverage 1, price 1) the new
entry is sized to quantity 1000 from the full free balance, whereas pool
accounting as claimed would size it to (1000 - 500) = 500. -/
theorem C1_pool_sizing_ignores_locked_capital :
    (∀ (st : TraderState) (cfg : ExecCfg) (env : ExecEnv) (symbol signal mode : String),
      (execute_signal { st with capital_mode := mode } cfg env symbol
          signal).1.active_positions
        = (execute_signal st cfg env symbol signal).1.active_positions ∧
      (execute_signal { st with capital_mode := mode } cfg env symbol signal).2
        = (execute_signal st cfg env symbol signal).2) ∧
    lockedCapitalSum [("ETH", ⟨"e1", 1, 1, 500, 500, [], [], true, 0, 2, 15, none, 500⟩)]
      = 500 ∧
    (execute_signal
        ⟨"pool", [("ETH", ⟨"e1", 1, 1, 500, 500, [], [], true, 0, 2, 15, none, 500⟩)],
          ⟨2, ["ETH"]⟩, 1000, []⟩
        ⟨100, 1, true, 1, 2, false, [], 15, false, 1, 1/2, 4/5, false, 2⟩
        ⟨some 1000, some 1, "sig-1", none⟩ "BTC" "long").2 = true ∧
    (lookupPos (execute_signal
        ⟨"pool", [("ETH", ⟨"e1", 1, 1, 500, 500, [], [], true, 0, 2, 15, none, 500⟩)],
          ⟨2, ["ETH"]⟩, 1000, []⟩
        ⟨100, 1, true, 1, 2, false, [], 15, false, 1, 1/2, 4/5, false, 2⟩
        ⟨some 1000, some 1, "sig-1", none⟩ "BTC" "long").1.active_positions "BTC").map
      (fun p => p.total_amount) = some 1000 ∧
    RiskManager.calculate_position_size (1000 - 500) 100 1 1 = 500 ∧
    (1000 : ℚ) ≠ 500 := by
  refine ⟨execute_signal_capital_invariant, ?_, ?_, ?_, ?_, by norm_num⟩
  · norm_num [lockedCapitalSum]
  · norm_num [execute_signal, can_open_position, lookupPos,
      MultiPairManager.can_open_new_position, RiskManager.calculate_position_size,
      show ("ETH" : String) ≠ "BTC" from by decide, show ("BTC" : String) ≠ "ETH" from by decide]
  · norm_num [execute_signal, can_open_position, lookupPos, upsertPos, updateStats,
      setdefaultStats, MultiPairManager.can_open_new_position, MultiPairManager.add_position,
      RiskManager.calculate_position_size, RiskManager.calculate_stop_loss,
      RiskManager.calculate_take_profit, List.find?,
      show ("ETH" : String) ≠ "BTC" from by decide, show ("BTC" : String) ≠ "ETH" from by decide]
  · norm_num [RiskManager.calculate_position_size]

/-- C2: the ladder-fill claim fails in live mode: when the next unfilled
level triggers (and no close fired first), the code submits the market
fill order TWICE — once at `trader.py` line 301 and again at line 309 —
while marking one fill and blending the average once with a single
`fill_amount`. At entry 100, one level (price 95, multiplier 1),
base_amount 1, price 95: two (buy, 1) orders are submitted, the level is
marked filled, and the recompute yields average 97.5 and quantity 2
exactly as the volume-weighted formula of the claim prescribes for ONE
fill. -/
theorem C2_ladder_double_submission :
    (position_tick ⟨"p1", 100, 100, 1, 1, [⟨1, 95, -5, 1, false⟩], [], true, 0, 1000, 15,
        none, 100⟩ PairStats.fresh false ⟨some 95, true, true⟩).orders
      = [("buy", 1), ("buy", 1)] ∧
    (position_tick ⟨"p1", 100, 100, 1, 1, [⟨1, 95, -5, 1, false⟩], [], true, 0, 1000, 15,
        none, 100⟩ PairStats.fresh false ⟨some 95, true, true⟩).orders.length = 2 ∧
    ((position_tick ⟨"p1", 100, 100, 1, 1, [⟨1, 95, -5, 1, false⟩], [], true, 0, 1000, 15,
        none, 100⟩ PairStats.fresh false ⟨some 95, true, true⟩).position.map
      (fun p => p.total_amount)) = some 2 ∧
    ((position_tick ⟨"p1", 100, 100, 1, 1, [⟨1, 95, -5, 1, false⟩], [], true, 0, 1000, 15,
        none, 100⟩ PairStats.fresh false ⟨some 95, true, true⟩).position.map
      (fun p => p.average_entry)) = some (195/2) ∧
    ((position_tick ⟨"p1", 100, 100, 1, 1, [⟨1, 95, -5, 1, false⟩], [], true, 0, 1000, 15,
        none, 100⟩ PairStats.fresh false ⟨some 95, true, true⟩).position.map
      (fun p => p.levels_filled)) = some [1] ∧
    (position_tick ⟨"p1", 100, 100, 1, 1, [⟨1, 95, -5, 1, false⟩], [], true, 0, 1000, 15,
        none, 100⟩ PairStats.fresh false ⟨some 95, true, true⟩).close_reason = none ∧
    (recalculate_with_levels ⟨"p2", 100, 100, 1, 1, [], [], true, 0, 1000, 15, none, 100⟩
        95 1).average_entry = 195/2 ∧
    (recalculate_with_levels ⟨"p2", 100, 100, 1, 1, [], [], true, 0, 1000, 15, none, 100⟩
        95 1).total_amount = 2 ∧
    (2 : ℕ) ≠ 1 := by
  refine ⟨?_, ?_, ?_, ?_, ?_, ?_, ?_, ?_, by decide⟩ <;>
    norm_num [position_tick, tick_sl_tp, tick_drawdown, tick_ladder, markNextFilled,
      recalculate_with_levels, close_position, closePnlAbs, closeStatsUpdate, List.find?]

end CryptoBot
